import Mathlib

/-!
Verification of the audio-similarity engine of the reverse-karaoke game
(`src/AudioManager.js`) against its natural-language specification.

The JavaScript code is embedded shallowly: sample data of an `AudioBuffer`
becomes a function `ℕ → ℝ` together with an explicit `length` and
`sampleRate`; each extractor and similarity function of `AudioManager`
becomes a Lean definition mirroring the source loop by loop (loops become
`Finset.range` sums or `List` folds); IEEE floats are idealised as exact
reals, with `Math.sqrt` and `Math.log` as `Real.sqrt` and `Real.log`.
`Math.round` is floor of `x + 1/2`, as in JS for the values that arise here.
-/

open Finset

open scoped Classical

noncomputable section

namespace ReverseKaraoke

/-- A decoded Web Audio `AudioBuffer`: per-channel sample data, a sample
count and a sample rate.  `data ch i` is sample `i` of channel `ch`. -/
structure AudioBuffer where
  numberOfChannels : ℕ
  length : ℕ
  sampleRate : ℕ
  data : ℕ → ℕ → ℝ

/-- `AudioBuffer.duration` as exposed by Web Audio: sample count over rate. -/
def AudioBuffer.duration (b : AudioBuffer) : ℝ := (b.length : ℝ) / (b.sampleRate : ℝ)

/-- `reverseAudioBuffer` (AudioManager.js:282): a fresh buffer with the same
channel count, length and sample rate, each channel written as
`outputData[i] = inputData[length - 1 - i]`.  Positions outside the written
range keep the `Float32Array` zero fill. -/
def reverseAudioBuffer (b : AudioBuffer) : AudioBuffer :=
  { numberOfChannels := b.numberOfChannels
    length := b.length
    sampleRate := b.sampleRate
    data := fun ch i => if i < b.length then b.data ch (b.length - 1 - i) else 0 }

/-- Frame count of the loop `for (pos = 0; pos < len - window; pos += hop)`
(JS subtraction is signed, so `len ≤ window` yields no frame). -/
def numFrames (len window hop : ℕ) : ℕ :=
  if window < len then (len - window - 1) / hop + 1 else 0

/-- The frame start positions visited by that loop: `0, hop, 2·hop, …`. -/
def framePositions (len window hop : ℕ) : List ℕ :=
  (List.range (numFrames len window hop)).map (· * hop)

/-- Synthetic frequency of bin `i`: `i * sampleRate / windowSize` with
`windowSize = 2048` (AudioManager.js:392 and :539). -/
def binFreq (sampleRate i : ℕ) : ℝ := (i : ℝ) * (sampleRate : ℝ) / 2048

/-- Mel band edge `melBands[b]` (AudioManager.js:380-384):
`melFreq = (b/13)·2595·log10(1 + sampleRate/2/700)` and
`700·(10^(melFreq/2595) - 1)`. -/
def melBand (sampleRate b : ℕ) : ℝ :=
  700 * ((10 : ℝ) ^ ((((b : ℝ) / 13) * 2595 * Real.logb 10 (1 + (sampleRate : ℝ) / 2 / 700)) / 2595) - 1)

/-- The first band `b < 12` with `melBands[b] ≤ freq < melBands[b+1]`,
mirroring the inner `for (b = 0; b < numBands - 1; b++) … break` search
(AudioManager.js:396-401). -/
def firstMatchingBand (sampleRate : ℕ) (freq : ℝ) : Option ℕ :=
  (List.range 12).find? fun b =>
    decide (melBand sampleRate b ≤ freq ∧ freq < melBand sampleRate (b + 1))

/-- Energy accumulated into band `b` for the frame starting at `pos`:
each bin `i < 1024` contributes `|frame[i]|²` to the first matching band. -/
def bandEnergy (d : ℕ → ℝ) (sampleRate pos b : ℕ) : ℝ :=
  ∑ i ∈ range 1024,
    if firstMatchingBand sampleRate (binFreq sampleRate i) = some b
    then |d (pos + i)| * |d (pos + i)| else 0

/-- One 13-entry log band-energy vector: `log(energy + 1e-10)` per band. -/
def mfccFrame (d : ℕ → ℝ) (sampleRate pos : ℕ) : List ℝ :=
  (List.range 13).map fun b => Real.log (bandEnergy d sampleRate pos b + 1e-10)

/-- `extractMFCCFeatures` (AudioManager.js:373): window 2048, hop 512, one
13-dimensional vector per frame. -/
def extractMFCCFeatures (d : ℕ → ℝ) (len sampleRate : ℕ) : List (List ℝ) :=
  (framePositions len 2048 512).map fun pos => mfccFrame d sampleRate pos

/-- Sum of squared entries of a feature vector (used to state bounds). -/
def vecSumSq (v : List ℝ) : ℝ := ∑ j ∈ range v.length, v.getD j 0 * v.getD j 0

/-- Cosine similarity of two feature vectors (AudioManager.js:426-433); all
three accumulations run over `f1.length` as in the source, and the
denominator is `sqrt(mag1·mag2) + 1e-10`. -/
def cosineSim (f1 f2 : List ℝ) : ℝ :=
  (∑ j ∈ range f1.length, f1.getD j 0 * f2.getD j 0) /
    (Real.sqrt ((∑ j ∈ range f1.length, f1.getD j 0 * f1.getD j 0) *
      (∑ j ∈ range f1.length, f2.getD j 0 * f2.getD j 0)) + 1e-10)

/-- `calculateMFCCSimilarity` (AudioManager.js:415): `0` on an empty side,
else the mean cosine similarity over `minFrames` linearly aligned frames. -/
def calculateMFCCSimilarity (features1 features2 : List (List ℝ)) : ℝ :=
  if features1.length = 0 ∨ features2.length = 0 then 0
  else
    (∑ i ∈ range (min features1.length features2.length),
      cosineSim
        (features1.getD (i * features1.length / min features1.length features2.length) [])
        (features2.getD (i * features2.length / min features1.length features2.length) [])) /
      ((min features1.length features2.length : ℕ) : ℝ)

/-- Autocorrelation of the frame at `pos` for a given lag:
`Σ frame[i]·frame[i+lag]` over `i < windowSize - lag` (AudioManager.js:460-463). -/
def pitchCorr (d : ℕ → ℝ) (pos lag : ℕ) : ℝ :=
  ∑ i ∈ range (2048 - lag), d (pos + i) * d (pos + i + lag)

/-- One step of the best-lag search; `none` plays the role of the
`maxCorr = -Infinity` initialisation (AudioManager.js:456-469). -/
def bestLagStep (d : ℕ → ℝ) (pos : ℕ) (acc : Option (ℝ × ℕ)) (lag : ℕ) : Option (ℝ × ℕ) :=
  match acc with
  | none => some (pitchCorr d pos lag, lag)
  | some (mc, bl) => if mc < pitchCorr d pos lag then some (pitchCorr d pos lag, lag) else some (mc, bl)

/-- Lags scanned per frame: `floor(sr/500) ≤ lag < min(floor(sr/80), 1024)`. -/
def pitchLagList (sampleRate : ℕ) : List ℕ :=
  List.range' (sampleRate / 500) (min (sampleRate / 80) 1024 - sampleRate / 500)

/-- Pitch of the frame at `pos`: `sampleRate / bestLag` when the best
correlation exceeds `0.3`, else `0` (unvoiced). -/
def pitchAt (d : ℕ → ℝ) (sampleRate pos : ℕ) : ℝ :=
  match (pitchLagList sampleRate).foldl (bestLagStep d pos) none with
  | none => 0
  | some (mc, bl) => if (0.3 : ℝ) < mc then (if 0 < bl then (sampleRate : ℝ) / (bl : ℝ) else 0) else 0

/-- `extractPitchContour` (AudioManager.js:443): window 2048, hop 512, one
Hz value (or `0`) per frame. -/
def extractPitchContour (d : ℕ → ℝ) (len sampleRate : ℕ) : List ℝ :=
  (framePositions len 2048 512).map fun pos => pitchAt d sampleRate pos

/-- Contribution of one aligned pitch pair: `(difference, counted)`.
Both unvoiced: skipped; exactly one unvoiced: penalty `1`; both voiced:
`min(1, |p1-p2| / max(p1,p2))` (AudioManager.js:499-512). -/
def pitchPair (p1 p2 : ℝ) : ℝ × ℕ :=
  if p1 = 0 ∧ p2 = 0 then (0, 0)
  else if p1 = 0 ∨ p2 = 0 then (1, 1)
  else (min 1 (|p1 - p2| / max p1 p2), 1)

/-- `calculatePitchContourMatch` (AudioManager.js:488): `0.5` on an empty
side or when no pair is counted, else `1 - totalDiff / validFrames`. -/
def calculatePitchContourMatch (contour1 contour2 : List ℝ) : ℝ :=
  if contour1.length = 0 ∨ contour2.length = 0 then 0.5
  else
    if (∑ i ∈ range (min contour1.length contour2.length),
         (pitchPair (contour1.getD (i * contour1.length / min contour1.length contour2.length) 0)
            (contour2.getD (i * contour2.length / min contour1.length contour2.length) 0)).2) = 0
    then 0.5
    else 1 -
      (∑ i ∈ range (min contour1.length contour2.length),
        (pitchPair (contour1.getD (i * contour1.length / min contour1.length contour2.length) 0)
           (contour2.getD (i * contour2.length / min contour1.length contour2.length) 0)).1) /
      ((∑ i ∈ range (min contour1.length contour2.length),
        (pitchPair (contour1.getD (i * contour1.length / min contour1.length contour2.length) 0)
           (contour2.getD (i * contour2.length / min contour1.length contour2.length) 0)).2 : ℕ) : ℝ)

/-- Spectral centroid of the non-overlapping frame `fr` (AudioManager.js:529-547):
amplitude-weighted mean of the synthetic bin frequencies, `0` when the
magnitude sum is not positive. -/
def centroidFrame (d : ℕ → ℝ) (sampleRate fr : ℕ) : ℝ :=
  if 0 < ∑ i ∈ range 1024, |d (fr * 2048 + i)|
  then (∑ i ∈ range 1024, binFreq sampleRate i * |d (fr * 2048 + i)|) /
    (∑ i ∈ range 1024, |d (fr * 2048 + i)|)
  else 0

/-- `calculateSpectralCentroid` (AudioManager.js:524): mean frame centroid
over `floor(len / 2048)` frames, `0` when there is no frame. -/
def calculateSpectralCentroid (d : ℕ → ℝ) (len sampleRate : ℕ) : ℝ :=
  if 0 < len / 2048
  then (∑ fr ∈ range (len / 2048), centroidFrame d sampleRate fr) / ((len / 2048 : ℕ) : ℝ)
  else 0

/-- Short-time RMS of the 2048-sample window at `pos` (AudioManager.js:559-564). -/
def rmsWindow (d : ℕ → ℝ) (pos : ℕ) : ℝ :=
  Real.sqrt ((∑ j ∈ range 2048, d (pos + j) * d (pos + j)) / 2048)

/-- `calculateRMSEnergyCurve` (AudioManager.js:555): window 2048, hop 1024. -/
def calculateRMSEnergyCurve (d : ℕ → ℝ) (len : ℕ) : List ℝ :=
  (framePositions len 2048 1024).map fun pos => rmsWindow d pos

/-- The local `sum1Sq - sum1*sum1/len` of `calculateCorrelation`
(AudioManager.js:613-614) for one input, over the common length `n`. -/
def corrVariance (arr : List ℝ) (n : ℕ) : ℝ :=
  (∑ i ∈ range n, arr.getD i 0 * arr.getD i 0) -
    (∑ i ∈ range n, arr.getD i 0) * (∑ i ∈ range n, arr.getD i 0) / (n : ℝ)

/-- The local `pSum - sum1*sum2/len` of `calculateCorrelation`
(AudioManager.js:613). -/
def corrCross (arr1 arr2 : List ℝ) (n : ℕ) : ℝ :=
  (∑ i ∈ range n, arr1.getD i 0 * arr2.getD i 0) -
    (∑ i ∈ range n, arr1.getD i 0) * (∑ i ∈ range n, arr2.getD i 0) / (n : ℝ)

/-- `calculateCorrelation` (AudioManager.js:599): Pearson correlation over
the common prefix, `0` on empty input or a zero denominator. -/
def calculateCorrelation (arr1 arr2 : List ℝ) : ℝ :=
  if min arr1.length arr2.length = 0 then 0
  else
    if Real.sqrt (corrVariance arr1 (min arr1.length arr2.length) *
        corrVariance arr2 (min arr1.length arr2.length)) = 0 then 0
    else
      corrCross arr1 arr2 (min arr1.length arr2.length) /
        Real.sqrt (corrVariance arr1 (min arr1.length arr2.length) *
          corrVariance arr2 (min arr1.length arr2.length))

/-- The truncated copy `new Float32Array(n).set(data.slice(0, n))`
(AudioManager.js:646-649). -/
def normalize (d : ℕ → ℝ) (n : ℕ) : ℕ → ℝ := fun i => if i < n then d i else 0

/-- Channel 0 of a buffer, as read by `getChannelData(0)`. -/
def comparisonData (b : AudioBuffer) : ℕ → ℝ := b.data 0

/-- `minLength` of the two channel-data arrays (AudioManager.js:643). -/
def minLength (b1 b2 : AudioBuffer) : ℕ := min b1.length b2.length

/-- Timbre term (AudioManager.js:652-656): MFCC cosine similarity remapped
from `[-1,1]` to `[0,1]`.  Note both extractions use `buffer1.sampleRate`. -/
def mfccSimilarityTerm (b1 b2 : AudioBuffer) : ℝ :=
  (calculateMFCCSimilarity
      (extractMFCCFeatures (normalize (comparisonData b1) (minLength b1 b2)) (minLength b1 b2) b1.sampleRate)
      (extractMFCCFeatures (normalize (comparisonData b2) (minLength b1 b2)) (minLength b1 b2) b1.sampleRate)
    + 1) / 2

/-- Pitch contour term (AudioManager.js:659-661). -/
def pitchMatchTerm (b1 b2 : AudioBuffer) : ℝ :=
  calculatePitchContourMatch
    (extractPitchContour (normalize (comparisonData b1) (minLength b1 b2)) (minLength b1 b2) b1.sampleRate)
    (extractPitchContour (normalize (comparisonData b2) (minLength b1 b2)) (minLength b1 b2) b1.sampleRate)

/-- The envelope (RMS curve) of one buffer, truncated to the common
length `n` of the comparison. -/
def envCurveOf (b : AudioBuffer) (n : ℕ) : List ℝ :=
  calculateRMSEnergyCurve (normalize (comparisonData b) n) n

/-- Envelope term (AudioManager.js:664-667): RMS-curve correlation remapped
from `[-1,1]` to `[0,1]`. -/
def envelopeMatchTerm (b1 b2 : AudioBuffer) : ℝ :=
  (calculateCorrelation (envCurveOf b1 (minLength b1 b2)) (envCurveOf b2 (minLength b1 b2)) + 1) / 2

/-- Spectral centroid term (AudioManager.js:670-674):
`1 - min(1, |c1-c2| / max(c1, c2, 1))`. -/
def spectralMatchTerm (b1 b2 : AudioBuffer) : ℝ :=
  1 - min 1
    (|calculateSpectralCentroid (normalize (comparisonData b1) (minLength b1 b2)) (minLength b1 b2) b1.sampleRate -
        calculateSpectralCentroid (normalize (comparisonData b2) (minLength b1 b2)) (minLength b1 b2) b1.sampleRate| /
      max (calculateSpectralCentroid (normalize (comparisonData b1) (minLength b1 b2)) (minLength b1 b2) b1.sampleRate)
        (max (calculateSpectralCentroid (normalize (comparisonData b2) (minLength b1 b2)) (minLength b1 b2) b1.sampleRate) 1))

/-- Full-signal RMS over the truncated length (AudioManager.js:677-683). -/
def rmsEnergy (d : ℕ → ℝ) (n : ℕ) : ℝ :=
  Real.sqrt ((∑ i ∈ range n, d i * d i) / (n : ℝ))

/-- Energy term (AudioManager.js:684): `min(rms1,rms2) / max(rms1,rms2,0.001)`. -/
def energyMatchTerm (b1 b2 : AudioBuffer) : ℝ :=
  min (rmsEnergy (normalize (comparisonData b1) (minLength b1 b2)) (minLength b1 b2))
      (rmsEnergy (normalize (comparisonData b2) (minLength b1 b2)) (minLength b1 b2)) /
    max (rmsEnergy (normalize (comparisonData b1) (minLength b1 b2)) (minLength b1 b2))
      (max (rmsEnergy (normalize (comparisonData b2) (minLength b1 b2)) (minLength b1 b2)) 0.001)

/-- Duration term (AudioManager.js:687-689): `1 - |dur1-dur2| / max(dur1,dur2)`. -/
def durationMatchTerm (b1 b2 : AudioBuffer) : ℝ :=
  1 - |b1.duration - b2.duration| / max b1.duration b2.duration

/-- The fixed weighted combination (AudioManager.js:692-699). -/
def rawScore (b1 b2 : AudioBuffer) : ℝ :=
  mfccSimilarityTerm b1 b2 * 0.35 + pitchMatchTerm b1 b2 * 0.25 +
    envelopeMatchTerm b1 b2 * 0.15 + spectralMatchTerm b1 b2 * 0.10 +
    energyMatchTerm b1 b2 * 0.10 + durationMatchTerm b1 b2 * 0.05

/-- The three-branch curve of AudioManager.js:703-713, with the source's
constant `166.67`. -/
def curveAdjust (raw : ℝ) : ℝ :=
  if 0.7 < raw then 50 + (raw - 0.7) * 166.67
  else if 0.4 < raw then 20 + (raw - 0.4) * 100
  else raw * 50

/-- `Math.round` for the scores at hand: floor of `x + 1/2`. -/
def jsRound (x : ℝ) : ℤ := ⌊x + 1 / 2⌋

/-- The comparison core of `compareAudio` (AudioManager.js:623-733) on two
present buffers: six terms, weighted fusion, curve, clamp to `[0,100]`,
round to nearest. -/
def compareAudio (b1 b2 : AudioBuffer) : ℤ :=
  jsRound (max 0 (min 100 (curveAdjust (rawScore b1 b2))))

/-- `compareAudio` including its guard and `catch` (AudioManager.js:625-627
and :735-741): a missing buffer throws, and the handler reports `30`. -/
def compareAudioChecked (o1 o2 : Option AudioBuffer) : ℤ :=
  match o1, o2 with
  | some b1, some b2 => compareAudio b1 b2
  | _, _ => 30

/-- The scoring procedure exactly as claim C1 words it: same six terms and
weights, but the high branch of the remap multiplies by `166.667`. -/
def claimRemap (raw : ℝ) : ℝ :=
  if 0.7 < raw then 50 + (raw - 0.7) * 166.667
  else if 0.4 < raw then 20 + (raw - 0.4) * 100
  else raw * 50

/-- Reported score under claim C1's reading of the remap. -/
def claimScore (b1 b2 : AudioBuffer) : ℤ :=
  jsRound (max 0 (min 100 (claimRemap
    (0.35 * mfccSimilarityTerm b1 b2 + 0.25 * pitchMatchTerm b1 b2 +
      0.15 * envelopeMatchTerm b1 b2 + 0.10 * spectralMatchTerm b1 b2 +
      0.10 * energyMatchTerm b1 b2 + 0.05 * durationMatchTerm b1 b2))))

/-- Band-energy accumulation as claim C8 words it: bin `i` contributes its
squared magnitude to the band whose `[low, high)` edge interval contains
`freq i`; the 13-entry vector's last band has no interval above it. -/
def specBandEnergy (d : ℕ → ℝ) (sampleRate pos b : ℕ) : ℝ :=
  ∑ i ∈ range 1024,
    if b < 12 ∧ melBand sampleRate b ≤ binFreq sampleRate i ∧
        binFreq sampleRate i < melBand sampleRate (b + 1)
    then |d (pos + i)| * |d (pos + i)| else 0

/-- Timbre extraction as claim C8 words it. -/
def specMFCCFeatures (d : ℕ → ℝ) (len sampleRate : ℕ) : List (List ℝ) :=
  (framePositions len 2048 512).map fun pos =>
    (List.range 13).map fun b => Real.log (specBandEnergy d sampleRate pos b + 1e-10)

/-- A heap of `Float32Array`s: array id to contents. -/
def Heap : Type := ℕ → ℕ → ℝ

/-- Overwrite one array of the heap. -/
def heapWrite (h : Heap) (a : ℕ) (v : ℕ → ℝ) : Heap :=
  fun a2 => if a2 = a then v else h a2

/-- A buffer whose channel-0 samples live in the heap at array id `chan`. -/
structure HeapBuffer where
  length : ℕ
  sampleRate : ℕ
  chan : ℕ

/-- View of a heap buffer as a plain buffer. -/
def bufferOfHeap (h : Heap) (hb : HeapBuffer) : AudioBuffer :=
  { numberOfChannels := 1, length := hb.length, sampleRate := hb.sampleRate,
    data := fun _ i => h hb.chan i }

/-- `compareAudio` at the level of array effects: it reads the two input
arrays, allocates `normalized1`/`normalized2` at the fresh ids `n1`/`n2`
and writes the truncated copies there (AudioManager.js:639-649); every
other store of the routine targets locals of the extractors.  Returns the
final heap and the reported score. -/
def compareAudioHeap (h : Heap) (hb1 hb2 : HeapBuffer) (n1 n2 : ℕ) : Heap × ℤ :=
  (heapWrite (heapWrite h n1 (normalize (h hb1.chan) (min hb1.length hb2.length)))
      n2 (normalize (h hb2.chan) (min hb1.length hb2.length)),
    compareAudio (bufferOfHeap h hb1) (bufferOfHeap h hb2))

/-- All-zero channel data. -/
def zeroData : ℕ → ℝ := fun _ => 0

/-- Channel data that is zero except for one sample of amplitude `a` at
index 2048 (outside every analysis frame of a 2049-sample buffer, but
inside the full-signal RMS). -/
def tailSpikeData (a : ℝ) : ℕ → ℝ := fun i => if i = 2048 then a else 0

/-- Channel data with unit spikes at indices 0 and 96. -/
def doubleSpikeData : ℕ → ℝ := fun i => if i = 0 then 1 else if i = 96 then 1 else 0

/-- 2049-sample 48 kHz buffer, zero but for amplitude `a` at index 2048. -/
def tailSpikeBuffer (a : ℝ) : AudioBuffer :=
  { numberOfChannels := 1, length := 2049, sampleRate := 48000, data := fun _ => tailSpikeData a }

/-- 2049-sample 48 kHz all-zero buffer. -/
def zeroBuffer : AudioBuffer :=
  { numberOfChannels := 1, length := 2049, sampleRate := 48000, data := fun _ => zeroData }

/-- 3073-sample 48 kHz buffer with unit spikes at samples 0 and 96. -/
def voicedBuffer : AudioBuffer :=
  { numberOfChannels := 1, length := 3073, sampleRate := 48000, data := fun _ => doubleSpikeData }

/-- 2048-sample 48 kHz buffer with a single unit spike at sample 0. -/
def symBufferA : AudioBuffer :=
  { numberOfChannels := 1, length := 2048, sampleRate := 48000,
    data := fun _ i => if i = 0 then 1 else 0 }

/-- 2048-sample 8 kHz buffer with samples `9999/10001` at 0 and `200/10001`
at 1 (total energy exactly 1, like `symBufferA`). -/
def symBufferB : AudioBuffer :=
  { numberOfChannels := 1, length := 2048, sampleRate := 8000,
    data := fun _ i => if i = 0 then 9999 / 10001 else if i = 1 then 200 / 10001 else 0 }

/-- C2: when either the reference or the candidate buffer is absent, the
comparison does not propagate an error and delivers exactly the score 30. -/
theorem C2_missing_input_fallback (o1 o2 : Option AudioBuffer) (h : o1 = none ∨ o2 = none) :
    compareAudioChecked o1 o2 = 30 := by
  rcases h with h | h
  · subst h; cases o2 <;> rfl
  · subst h; cases o1 <;> rfl

/-- Witness for C2 at a concrete input: absent reference, present candidate. -/
theorem C2_missing_input_fallback_witness :
    ((none : Option AudioBuffer) = none ∨ some zeroBuffer = none) ∧
      compareAudioChecked none (some zeroBuffer) = 30 :=
  ⟨Or.inl rfl, C2_missing_input_fallback none (some zeroBuffer) (Or.inl rfl)⟩

/-- Equal durations give a duration term of exactly 1. -/
theorem durationMatchTerm_eq_one (b1 b2 : AudioBuffer) (hd : b1.duration = b2.duration) :
    durationMatchTerm b1 b2 = 1 := by
  unfold durationMatchTerm
  rw [hd]
  simp

/-- C7: buffers with identical sample count and identical sample rate have
duration-match term exactly 1. -/
theorem C7_duration_match_identical (b1 b2 : AudioBuffer) (hlen : b1.length = b2.length)
    (hsr : b1.sampleRate = b2.sampleRate) (hl : 0 < b1.length) (hs : 0 < b1.sampleRate) :
    durationMatchTerm b1 b2 = 1 :=
  durationMatchTerm_eq_one b1 b2 (by unfold AudioBuffer.duration; rw [hlen, hsr])

/-- Witness for C7 at a concrete input. -/
theorem C7_duration_match_identical_witness :
    zeroBuffer.length = zeroBuffer.length ∧ 0 < zeroBuffer.length ∧
      durationMatchTerm zeroBuffer zeroBuffer = 1 :=
  ⟨rfl, by norm_num [zeroBuffer],
    C7_duration_match_identical zeroBuffer zeroBuffer rfl rfl
      (by norm_num [zeroBuffer]) (by norm_num [zeroBuffer])⟩

/-- C9: the comparison writes only the two freshly allocated normalized
arrays; both input arrays are unchanged in the final heap, and the score is
the pure function of the input samples. -/
theorem C9_no_input_mutation (h : Heap) (hb1 hb2 : HeapBuffer) (n1 n2 : ℕ)
    (h11 : n1 ≠ hb1.chan) (h12 : n1 ≠ hb2.chan) (h21 : n2 ≠ hb1.chan) (h22 : n2 ≠ hb2.chan) :
    (∀ i, (compareAudioHeap h hb1 hb2 n1 n2).1 hb1.chan i = h hb1.chan i) ∧
    (∀ i, (compareAudioHeap h hb1 hb2 n1 n2).1 hb2.chan i = h hb2.chan i) ∧
    (compareAudioHeap h hb1 hb2 n1 n2).2 =
      compareAudio (bufferOfHeap h hb1) (bufferOfHeap h hb2) := by
  refine ⟨fun i => ?_, fun i => ?_, rfl⟩ <;>
    simp [compareAudioHeap, heapWrite, Ne.symm h11, Ne.symm h12, Ne.symm h21, Ne.symm h22]

/-- Witness for C9 at a concrete heap and concrete distinct array ids. -/
theorem C9_no_input_mutation_witness :
    (2 ≠ 0) ∧
      (compareAudioHeap (fun _ _ => 0) ⟨5, 8000, 0⟩ ⟨5, 8000, 1⟩ 2 3).1 0 7 =
        (fun _ _ => (0 : ℝ)) 0 7 :=
  ⟨by decide,
    (C9_no_input_mutation (fun _ _ => 0) ⟨5, 8000, 0⟩ ⟨5, 8000, 1⟩ 2 3
      (by decide) (by decide) (by decide) (by decide)).1 7⟩

/-- C10: reversing a buffer twice restores every channel's samples and
keeps channel count, length and sample rate. -/
theorem C10_reverse_involution (b : AudioBuffer) (ch i : ℕ) (hi : i < b.length) :
    (reverseAudioBuffer (reverseAudioBuffer b)).numberOfChannels = b.numberOfChannels ∧
    (reverseAudioBuffer (reverseAudioBuffer b)).length = b.length ∧
    (reverseAudioBuffer (reverseAudioBuffer b)).sampleRate = b.sampleRate ∧
    (reverseAudioBuffer (reverseAudioBuffer b)).data ch i = b.data ch i := by
  refine ⟨rfl, rfl, rfl, ?_⟩
  simp only [reverseAudioBuffer]
  rw [if_pos hi, if_pos (by omega)]
  congr 1
  omega

/-- Witness for C10 at a concrete buffer and sample index. -/
theorem C10_reverse_involution_witness :
    0 < zeroBuffer.length ∧
      (reverseAudioBuffer (reverseAudioBuffer zeroBuffer)).data 0 5 = zeroBuffer.data 0 5 :=
  ⟨by norm_num [zeroBuffer],
    (C10_reverse_involution zeroBuffer 0 5 (by norm_num [zeroBuffer])).2.2.2⟩

/-- The mel band edges are strictly increasing for a positive sample rate. -/
theorem melBand_lt_melBand (sampleRate : ℕ) (hsr : 0 < sampleRate) {b b2 : ℕ} (h : b < b2) :
    melBand sampleRate b < melBand sampleRate b2 := by
  unfold melBand
  have hs : (1 : ℝ) < 1 + (sampleRate : ℝ) / 2 / 700 := by
    have h0 : (0 : ℝ) < (sampleRate : ℝ) := by exact_mod_cast hsr
    linarith
  have hlog : 0 < Real.logb 10 (1 + (sampleRate : ℝ) / 2 / 700) :=
    Real.logb_pos (by norm_num) hs
  have hb : (b : ℝ) < (b2 : ℝ) := by exact_mod_cast h
  have hexp : ((b : ℝ) / 13) * 2595 * Real.logb 10 (1 + (sampleRate : ℝ) / 2 / 700) / 2595 <
      ((b2 : ℝ) / 13) * 2595 * Real.logb 10 (1 + (sampleRate : ℝ) / 2 / 700) / 2595 := by
    have hfac : ((b : ℝ) / 13) * 2595 < ((b2 : ℝ) / 13) * 2595 := by linarith
    have := mul_lt_mul_of_pos_right hfac hlog
    linarith
  have hpow := (Real.rpow_lt_rpow_left_iff (show (1 : ℝ) < 10 by norm_num)).mpr hexp
  linarith

/-- Monotone version of the previous lemma. -/
theorem melBand_le_melBand (sampleRate : ℕ) (hsr : 0 < sampleRate) {b b2 : ℕ} (h : b ≤ b2) :
    melBand sampleRate b ≤ melBand sampleRate b2 := by
  rcases Nat.eq_or_lt_of_le h with rfl | hlt
  · exact le_rfl
  · exact (melBand_lt_melBand sampleRate hsr hlt).le

/-- Any frequency lies in at most one mel edge interval. -/
theorem melBand_interval_unique (sampleRate : ℕ) (hsr : 0 < sampleRate) {freq : ℝ} {b b2 : ℕ}
    (h1 : melBand sampleRate b ≤ freq ∧ freq < melBand sampleRate (b + 1))
    (h2 : melBand sampleRate b2 ≤ freq ∧ freq < melBand sampleRate (b2 + 1)) : b = b2 := by
  by_contra hne
  rcases Nat.lt_or_ge b b2 with hlt | hge
  · have hle : melBand sampleRate (b + 1) ≤ melBand sampleRate b2 :=
      melBand_le_melBand sampleRate hsr hlt
    linarith [h1.2, h2.1]
  · have hlt2 : b2 < b := Nat.lt_of_le_of_ne hge (fun hx => hne hx.symm)
    have hle : melBand sampleRate (b2 + 1) ≤ melBand sampleRate b :=
      melBand_le_melBand sampleRate hsr hlt2
    linarith [h2.2, h1.1]

/-- The source's first-match band search accumulates exactly as the
unique-containing-band description does. -/
theorem bandEnergy_eq_spec (d : ℕ → ℝ) (sampleRate : ℕ) (hsr : 0 < sampleRate) (pos b : ℕ) :
    bandEnergy d sampleRate pos b = specBandEnergy d sampleRate pos b := by
  unfold bandEnergy specBandEnergy
  refine Finset.sum_congr rfl fun i _ => ?_
  have hiff : (firstMatchingBand sampleRate (binFreq sampleRate i) = some b) ↔
      (b < 12 ∧ melBand sampleRate b ≤ binFreq sampleRate i ∧
        binFreq sampleRate i < melBand sampleRate (b + 1)) := by
    unfold firstMatchingBand
    constructor
    · intro hf
      have hmem := List.mem_of_find?_eq_some hf
      have hp := List.find?_some hf
      simp only [decide_eq_true_eq] at hp
      exact ⟨List.mem_range.mp hmem, hp⟩
    · rintro ⟨hb12, hin⟩
      cases hfind : List.find?
          (fun b => decide (melBand sampleRate b ≤ binFreq sampleRate i ∧
            binFreq sampleRate i < melBand sampleRate (b + 1))) (List.range 12) with
      | none =>
        exfalso
        have hnone := List.find?_eq_none.mp hfind b (List.mem_range.mpr hb12)
        simp only [decide_eq_true_eq] at hnone
        exact hnone hin
      | some b2 =>
        have hp := List.find?_some hfind
        simp only [decide_eq_true_eq] at hp
        rw [melBand_interval_unique sampleRate hsr hp hin]
  rw [if_congr hiff rfl rfl]

/-- C8: the timbre extractor frames at window 2048 / hop 512 and, per bin
`i < 1024`, accumulates the squared time-domain magnitude into the unique
mel band whose edge interval contains `i·sampleRate/2048`, producing one
13-entry log band-energy vector per frame. -/
theorem C8_timbre_band_accumulation (d : ℕ → ℝ) (len sampleRate : ℕ) (hsr : 0 < sampleRate) :
    extractMFCCFeatures d len sampleRate = specMFCCFeatures d len sampleRate ∧
    (∀ v ∈ extractMFCCFeatures d len sampleRate, v.length = 13) ∧
    (∀ freq : ℝ, ∀ b < 12, ∀ b2 < 12,
      (melBand sampleRate b ≤ freq ∧ freq < melBand sampleRate (b + 1)) →
      (melBand sampleRate b2 ≤ freq ∧ freq < melBand sampleRate (b2 + 1)) → b = b2) := by
  refine ⟨?_, ?_, ?_⟩
  · simp only [extractMFCCFeatures, specMFCCFeatures, mfccFrame,
      bandEnergy_eq_spec d sampleRate hsr]
  · intro v hv
    rcases List.mem_map.mp hv with ⟨pos, _, rfl⟩
    simp [mfccFrame]
  · intro freq b _ b2 _ h1 h2
    exact melBand_interval_unique sampleRate hsr h1 h2

/-- Witness for C8 at a concrete sample rate and waveform. -/
theorem C8_timbre_band_accumulation_witness :
    0 < 48000 ∧ extractMFCCFeatures zeroData 0 48000 = specMFCCFeatures zeroData 0 48000 :=
  ⟨by norm_num, (C8_timbre_band_accumulation zeroData 0 48000 (by norm_num)).1⟩

/-- `getD` with default 0 of a list of nonnegative entries is nonnegative. -/
theorem list_getD_nonneg (l : List ℝ) (h : ∀ x ∈ l, 0 ≤ x) (n : ℕ) : 0 ≤ l.getD n 0 := by
  rcases Nat.lt_or_ge n l.length with hlt | hge
  · rw [List.getD_eq_getElem?_getD, List.getElem?_eq_getElem hlt]
    exact h _ (List.getElem_mem hlt)
  · rw [List.getD_eq_getElem?_getD, List.getElem?_eq_none hge]
    exact le_refl 0

/-- The cosine similarity of the source lies in `[-1, 1)`: Cauchy-Schwarz
plus the strictly enlarged denominator `sqrt(mag1·mag2) + 1e-10`. -/
theorem cosineSim_bounds (f1 f2 : List ℝ) :
    -1 ≤ cosineSim f1 f2 ∧ cosineSim f1 f2 < 1 := by
  unfold cosineSim
  set dotP := ∑ j ∈ range f1.length, f1.getD j 0 * f2.getD j 0 with hdot
  set m1 := ∑ j ∈ range f1.length, f1.getD j 0 * f1.getD j 0 with hm1d
  set m2 := ∑ j ∈ range f1.length, f2.getD j 0 * f2.getD j 0 with hm2d
  have hcs : dotP * dotP ≤ m1 * m2 := by
    have h := Finset.sum_mul_sq_le_sq_mul_sq (range f1.length)
      (fun j => f1.getD j 0) (fun j => f2.getD j 0)
    simp only [pow_two] at h
    rw [← hdot, ← hm1d, ← hm2d] at h
    exact h
  have habs : |dotP| ≤ Real.sqrt (m1 * m2) := by
    rw [← Real.sqrt_mul_self (abs_nonneg dotP)]
    apply Real.sqrt_le_sqrt
    rwa [abs_mul_abs_self]
  have hden : 0 < Real.sqrt (m1 * m2) + 1e-10 := by positivity
  constructor
  · rw [le_div_iff₀ hden]
    have := neg_abs_le dotP
    nlinarith [Real.sqrt_nonneg (m1 * m2)]
  · rw [div_lt_one hden]
    have := le_abs_self dotP
    nlinarith

/-- The averaged MFCC similarity lies in `[-1, 1)`. -/
theorem calculateMFCCSimilarity_bounds (F1 F2 : List (List ℝ)) :
    -1 ≤ calculateMFCCSimilarity F1 F2 ∧ calculateMFCCSimilarity F1 F2 < 1 := by
  unfold calculateMFCCSimilarity
  split_ifs with h
  · norm_num
  · push_neg at h
    have hmpos : 0 < min F1.length F2.length :=
      lt_min (Nat.pos_of_ne_zero h.1) (Nat.pos_of_ne_zero h.2)
    have hmR : (0 : ℝ) < ((min F1.length F2.length : ℕ) : ℝ) := by exact_mod_cast hmpos
    constructor
    · rw [le_div_iff₀ hmR]
      have hsum : ∑ i ∈ range (min F1.length F2.length), (-1 : ℝ) ≤
          ∑ i ∈ range (min F1.length F2.length),
            cosineSim
              (F1.getD (i * F1.length / min F1.length F2.length) [])
              (F2.getD (i * F2.length / min F1.length F2.length) []) :=
        Finset.sum_le_sum fun i _ => (cosineSim_bounds _ _).1
      simp only [Finset.sum_const, Finset.card_range, nsmul_eq_mul] at hsum
      linarith
    · rw [div_lt_one hmR]
      have hsum : ∑ i ∈ range (min F1.length F2.length),
            cosineSim
              (F1.getD (i * F1.length / min F1.length F2.length) [])
              (F2.getD (i * F2.length / min F1.length F2.length) []) <
          ∑ i ∈ range (min F1.length F2.length), (1 : ℝ) :=
        Finset.sum_lt_sum_of_nonempty (Finset.nonempty_range_iff.mpr hmpos.ne')
          fun i _ => (cosineSim_bounds _ _).2
      simpa using hsum

/-- The timbre term lies in `[0, 1)`. -/
theorem mfccSimilarityTerm_bounds (b1 b2 : AudioBuffer) :
    0 ≤ mfccSimilarityTerm b1 b2 ∧ mfccSimilarityTerm b1 b2 < 1 := by
  unfold mfccSimilarityTerm
  have h := calculateMFCCSimilarity_bounds
    (extractMFCCFeatures (normalize (comparisonData b1) (minLength b1 b2)) (minLength b1 b2) b1.sampleRate)
    (extractMFCCFeatures (normalize (comparisonData b2) (minLength b1 b2)) (minLength b1 b2) b1.sampleRate)
  constructor <;> linarith [h.1, h.2]

/-- Every pitch value produced by a frame is nonnegative. -/
theorem pitchAt_nonneg (d : ℕ → ℝ) (sampleRate pos : ℕ) : 0 ≤ pitchAt d sampleRate pos := by
  unfold pitchAt
  cases (pitchLagList sampleRate).foldl (bestLagStep d pos) none with
  | none => exact le_refl 0
  | some p =>
    obtain ⟨mc, bl⟩ := p
    dsimp only
    split_ifs <;> positivity

/-- Every pitch-contour entry is nonnegative. -/
theorem extractPitchContour_nonneg (d : ℕ → ℝ) (len sampleRate : ℕ) :
    ∀ x ∈ extractPitchContour d len sampleRate, 0 ≤ x := by
  intro x hx
  rcases List.mem_map.mp hx with ⟨pos, _, rfl⟩
  exact pitchAt_nonneg d sampleRate pos

/-- A counted pitch pair contributes a difference in `[0, counted]`. -/
theorem pitchPair_bounds (p1 p2 : ℝ) (h1 : 0 ≤ p1) (h2 : 0 ≤ p2) :
    0 ≤ (pitchPair p1 p2).1 ∧ (pitchPair p1 p2).1 ≤ ((pitchPair p1 p2).2 : ℝ) ∧
      (pitchPair p1 p2).2 ≤ 1 := by
  unfold pitchPair
  split_ifs with ha hb
  · norm_num
  · norm_num
  · push_neg at hb
    have hp1 : 0 < p1 := lt_of_le_of_ne h1 (Ne.symm hb.1)
    have hmax : 0 < max p1 p2 := lt_max_of_lt_left hp1
    refine ⟨le_min (by norm_num) (div_nonneg (abs_nonneg _) hmax.le), ?_, le_refl 1⟩
    simpa using min_le_left 1 (|p1 - p2| / max p1 p2)

/-- The pitch-contour match of nonnegative contours lies in `[0, 1]`. -/
theorem calculatePitchContourMatch_bounds (c1 c2 : List ℝ)
    (h1 : ∀ x ∈ c1, 0 ≤ x) (h2 : ∀ x ∈ c2, 0 ≤ x) :
    0 ≤ calculatePitchContourMatch c1 c2 ∧ calculatePitchContourMatch c1 c2 ≤ 1 := by
  unfold calculatePitchContourMatch
  split_ifs with ha hb
  · norm_num
  · norm_num
  · set m := min c1.length c2.length with hm
    set T := ∑ i ∈ range m,
      (pitchPair (c1.getD (i * c1.length / m) 0) (c2.getD (i * c2.length / m) 0)).1 with hT
    set V := ∑ i ∈ range m,
      (pitchPair (c1.getD (i * c1.length / m) 0) (c2.getD (i * c2.length / m) 0)).2 with hV
    have hVpos : 0 < V := Nat.pos_of_ne_zero hb
    have hVR : (0 : ℝ) < (V : ℝ) := by exact_mod_cast hVpos
    have hT0 : 0 ≤ T :=
      Finset.sum_nonneg fun i _ =>
        (pitchPair_bounds _ _ (list_getD_nonneg c1 h1 _) (list_getD_nonneg c2 h2 _)).1
    have hTV : T ≤ (V : ℝ) := by
      have hstep : T ≤ ∑ i ∈ range m,
          (((pitchPair (c1.getD (i * c1.length / m) 0) (c2.getD (i * c2.length / m) 0)).2 : ℕ) : ℝ) :=
        Finset.sum_le_sum fun i _ =>
          (pitchPair_bounds _ _ (list_getD_nonneg c1 h1 _) (list_getD_nonneg c2 h2 _)).2.1
      rw [hV]
      push_cast
      exact hstep
    constructor
    · have hdiv : T / (V : ℝ) ≤ 1 := (div_le_one hVR).mpr hTV
      linarith
    · have hdiv : 0 ≤ T / (V : ℝ) := div_nonneg hT0 hVR.le
      linarith

/-- The pitch term lies in `[0, 1]`. -/
theorem pitchMatchTerm_bounds (b1 b2 : AudioBuffer) :
    0 ≤ pitchMatchTerm b1 b2 ∧ pitchMatchTerm b1 b2 ≤ 1 :=
  calculatePitchContourMatch_bounds _ _
    (extractPitchContour_nonneg _ _ _) (extractPitchContour_nonneg _ _ _)

/-- `corrCross` is the sum of products of centered values. -/
theorem corrCross_centered (arr1 arr2 : List ℝ) (n : ℕ) (hn : n ≠ 0) :
    corrCross arr1 arr2 n =
      ∑ i ∈ range n,
        (arr1.getD i 0 - (∑ j ∈ range n, arr1.getD j 0) / n) *
        (arr2.getD i 0 - (∑ j ∈ range n, arr2.getD j 0) / n) := by
  have hnR : (n : ℝ) ≠ 0 := Nat.cast_ne_zero.mpr hn
  unfold corrCross
  have hexp : ∀ i ∈ range n,
      (arr1.getD i 0 - (∑ j ∈ range n, arr1.getD j 0) / n) *
        (arr2.getD i 0 - (∑ j ∈ range n, arr2.getD j 0) / n) =
      arr1.getD i 0 * arr2.getD i 0 -
        ((∑ j ∈ range n, arr2.getD j 0) / n) * arr1.getD i 0 -
        ((∑ j ∈ range n, arr1.getD j 0) / n) * arr2.getD i 0 +
        ((∑ j ∈ range n, arr1.getD j 0) / n) * ((∑ j ∈ range n, arr2.getD j 0) / n) :=
    fun i _ => by ring
  rw [Finset.sum_congr rfl hexp]
  rw [Finset.sum_add_distrib, Finset.sum_sub_distrib, Finset.sum_sub_distrib,
    ← Finset.mul_sum, ← Finset.mul_sum, Finset.sum_const, Finset.card_range, nsmul_eq_mul]
  field_simp
  ring

/-- The correlation's variance locals are nonnegative. -/
theorem corrVariance_nonneg (arr : List ℝ) (n : ℕ) : 0 ≤ corrVariance arr n := by
  rcases Nat.eq_zero_or_pos n with rfl | hn
  · simp [corrVariance]
  · have h : corrVariance arr n = corrCross arr arr n := rfl
    rw [h, corrCross_centered arr arr n hn.ne']
    exact Finset.sum_nonneg fun i _ => mul_self_nonneg _

/-- Cauchy-Schwarz for the correlation numerator against the variances. -/
theorem corrCross_sq_le (arr1 arr2 : List ℝ) (n : ℕ) (hn : n ≠ 0) :
    corrCross arr1 arr2 n * corrCross arr1 arr2 n ≤
      corrVariance arr1 n * corrVariance arr2 n := by
  have h1 : corrVariance arr1 n = corrCross arr1 arr1 n := rfl
  have h2 : corrVariance arr2 n = corrCross arr2 arr2 n := rfl
  rw [h1, h2, corrCross_centered arr1 arr2 n hn, corrCross_centered arr1 arr1 n hn,
    corrCross_centered arr2 arr2 n hn]
  have h := Finset.sum_mul_sq_le_sq_mul_sq (range n)
    (fun i => arr1.getD i 0 - (∑ j ∈ range n, arr1.getD j 0) / n)
    (fun i => arr2.getD i 0 - (∑ j ∈ range n, arr2.getD j 0) / n)
  simpa only [pow_two] using h

/-- The source's Pearson correlation lies in `[-1, 1]`. -/
theorem calculateCorrelation_bounds (arr1 arr2 : List ℝ) :
    -1 ≤ calculateCorrelation arr1 arr2 ∧ calculateCorrelation arr1 arr2 ≤ 1 := by
  unfold calculateCorrelation
  split_ifs with h0 hden
  · norm_num
  · norm_num
  · set n := min arr1.length arr2.length with hn
    have hv1 := corrVariance_nonneg arr1 n
    have hv2 := corrVariance_nonneg arr2 n
    have hprod : 0 ≤ corrVariance arr1 n * corrVariance arr2 n := mul_nonneg hv1 hv2
    have hdenpos : 0 < Real.sqrt (corrVariance arr1 n * corrVariance arr2 n) :=
      lt_of_le_of_ne (Real.sqrt_nonneg _) (Ne.symm hden)
    have habs : |corrCross arr1 arr2 n| ≤
        Real.sqrt (corrVariance arr1 n * corrVariance arr2 n) := by
      rw [← Real.sqrt_mul_self (abs_nonneg (corrCross arr1 arr2 n))]
      apply Real.sqrt_le_sqrt
      rw [abs_mul_abs_self]
      exact corrCross_sq_le arr1 arr2 n h0
    constructor
    · rw [le_div_iff₀ hdenpos]
      have := neg_abs_le (corrCross arr1 arr2 n)
      linarith
    · rw [div_le_one hdenpos]
      exact le_trans (le_abs_self _) habs

/-- The envelope term lies in `[0, 1]`. -/
theorem envelopeMatchTerm_bounds (b1 b2 : AudioBuffer) :
    0 ≤ envelopeMatchTerm b1 b2 ∧ envelopeMatchTerm b1 b2 ≤ 1 := by
  unfold envelopeMatchTerm
  have h := calculateCorrelation_bounds (envCurveOf b1 (minLength b1 b2)) (envCurveOf b2 (minLength b1 b2))
  constructor <;> linarith [h.1, h.2]

/-- The spectral-centroid term lies in `[0, 1]`. -/
theorem spectralMatchTerm_bounds (b1 b2 : AudioBuffer) :
    0 ≤ spectralMatchTerm b1 b2 ∧ spectralMatchTerm b1 b2 ≤ 1 := by
  unfold spectralMatchTerm
  set c1 := calculateSpectralCentroid (normalize (comparisonData b1) (minLength b1 b2)) (minLength b1 b2) b1.sampleRate
  set c2 := calculateSpectralCentroid (normalize (comparisonData b2) (minLength b1 b2)) (minLength b1 b2) b1.sampleRate
  have hden : (1 : ℝ) ≤ max c1 (max c2 1) := le_max_of_le_right (le_max_right _ _)
  have hx : 0 ≤ |c1 - c2| / max c1 (max c2 1) := div_nonneg (abs_nonneg _) (by linarith)
  have hle : min 1 (|c1 - c2| / max c1 (max c2 1)) ≤ 1 := min_le_left _ _
  have hge : 0 ≤ min 1 (|c1 - c2| / max c1 (max c2 1)) := le_min (by norm_num) hx
  constructor <;> linarith

/-- The energy term lies in `[0, 1]`. -/
theorem energyMatchTerm_bounds (b1 b2 : AudioBuffer) :
    0 ≤ energyMatchTerm b1 b2 ∧ energyMatchTerm b1 b2 ≤ 1 := by
  unfold energyMatchTerm
  set r1 := rmsEnergy (normalize (comparisonData b1) (minLength b1 b2)) (minLength b1 b2)
  set r2 := rmsEnergy (normalize (comparisonData b2) (minLength b1 b2)) (minLength b1 b2)
  have hr1 : 0 ≤ r1 := Real.sqrt_nonneg _
  have hr2 : 0 ≤ r2 := Real.sqrt_nonneg _
  have hden : (0 : ℝ) < max r1 (max r2 0.001) :=
    lt_max_of_lt_right (lt_max_of_lt_right (by norm_num))
  exact ⟨div_nonneg (le_min hr1 hr2) hden.le,
    (div_le_one hden).mpr (le_trans (min_le_left _ _) (le_max_left _ _))⟩

/-- The duration term lies in `[0, 1]` for buffers with positive length
and sample rate. -/
theorem durationMatchTerm_bounds (b1 b2 : AudioBuffer)
    (hl1 : 0 < b1.length) (hs1 : 0 < b1.sampleRate)
    (hl2 : 0 < b2.length) (hs2 : 0 < b2.sampleRate) :
    0 ≤ durationMatchTerm b1 b2 ∧ durationMatchTerm b1 b2 ≤ 1 := by
  unfold durationMatchTerm
  have hd1 : 0 < b1.duration := by
    unfold AudioBuffer.duration
    apply div_pos <;> exact_mod_cast (by assumption)
  have hd2 : 0 < b2.duration := by
    unfold AudioBuffer.duration
    apply div_pos <;> exact_mod_cast (by assumption)
  have hmax : 0 < max b1.duration b2.duration := lt_max_of_lt_left hd1
  have habs : |b1.duration - b2.duration| ≤ max b1.duration b2.duration := by
    rw [abs_le]
    constructor
    · have := le_max_right b1.duration b2.duration
      linarith
    · have := le_max_left b1.duration b2.duration
      linarith
  have h1 : |b1.duration - b2.duration| / max b1.duration b2.duration ≤ 1 :=
    (div_le_one hmax).mpr habs
  have h2 : 0 ≤ |b1.duration - b2.duration| / max b1.duration b2.duration :=
    div_nonneg (abs_nonneg _) hmax.le
  constructor <;> linarith

/-- The fused raw score lies in `[0, 1]` for buffers with positive length
and sample rate. -/
theorem rawScore_bounds (b1 b2 : AudioBuffer)
    (hl1 : 0 < b1.length) (hs1 : 0 < b1.sampleRate)
    (hl2 : 0 < b2.length) (hs2 : 0 < b2.sampleRate) :
    0 ≤ rawScore b1 b2 ∧ rawScore b1 b2 ≤ 1 := by
  have h1 := mfccSimilarityTerm_bounds b1 b2
  have h2 := pitchMatchTerm_bounds b1 b2
  have h3 := envelopeMatchTerm_bounds b1 b2
  have h4 := spectralMatchTerm_bounds b1 b2
  have h5 := energyMatchTerm_bounds b1 b2
  have h6 := durationMatchTerm_bounds b1 b2 hl1 hs1 hl2 hs2
  unfold rawScore
  constructor <;> nlinarith [h1.1, h1.2, h2.1, h2.2, h3.1, h3.2, h4.1, h4.2, h5.1, h5.2, h6.1, h6.2]

/-- The reported score is always an integer in `[0, 100]`. -/
theorem compareAudio_between (b1 b2 : AudioBuffer) :
    0 ≤ compareAudio b1 b2 ∧ compareAudio b1 b2 ≤ 100 := by
  unfold compareAudio jsRound
  set x := max 0 (min 100 (curveAdjust (rawScore b1 b2))) with hx
  have hx0 : (0 : ℝ) ≤ x := le_max_left _ _
  have hx100 : x ≤ 100 := max_le (by norm_num) (min_le_left _ _)
  constructor
  · exact Int.le_floor.mpr (by push_cast; linarith)
  · have hlt : ⌊x + 1 / 2⌋ < 101 := Int.floor_lt.mpr (by push_cast; linarith)
    omega

/-- A band accumulates no energy from an all-zero frame. -/
theorem bandEnergy_zero (d : ℕ → ℝ) (sampleRate pos b : ℕ)
    (hz : ∀ i, i < 1024 → d (pos + i) = 0) : bandEnergy d sampleRate pos b = 0 :=
  Finset.sum_eq_zero fun i hi => by
    rw [hz i (Finset.mem_range.mp hi)]
    simp

/-- The feature vector of an all-zero frame is thirteen copies of `log 1e-10`. -/
theorem mfccFrame_zero (d : ℕ → ℝ) (sampleRate pos : ℕ)
    (hz : ∀ i, i < 1024 → d (pos + i) = 0) :
    mfccFrame d sampleRate pos = List.replicate 13 (Real.log 1e-10) := by
  unfold mfccFrame
  have h : ∀ b ∈ List.range 13,
      Real.log (bandEnergy d sampleRate pos b + 1e-10) = Real.log 1e-10 := fun b _ => by
    rw [bandEnergy_zero d sampleRate pos b hz]
    norm_num
  rw [List.map_congr_left h, List.map_const', List.length_range]

/-- The autocorrelation of an all-zero frame is zero at every lag. -/
theorem pitchCorr_zero (d : ℕ → ℝ) (pos lag : ℕ)
    (hz : ∀ i, i < 2048 → d (pos + i) = 0) : pitchCorr d pos lag = 0 :=
  Finset.sum_eq_zero fun i hi => by
    have hi2 : i < 2048 := lt_of_lt_of_le (Finset.mem_range.mp hi) (Nat.sub_le _ _)
    rw [hz i hi2]
    ring

/-- The best-lag fold keeps its state when no later correlation beats it. -/
theorem foldl_bestLagStep_stay (d : ℕ → ℝ) (pos : ℕ) (mc : ℝ) (bl : ℕ) (l : List ℕ)
    (h : ∀ lag ∈ l, ¬ (mc < pitchCorr d pos lag)) :
    l.foldl (bestLagStep d pos) (some (mc, bl)) = some (mc, bl) := by
  induction l with
  | nil => rfl
  | cons x xs ih =>
    have hx := h x (List.mem_cons_self x xs)
    simp only [List.foldl_cons]
    rw [show bestLagStep d pos (some (mc, bl)) x = some (mc, bl) by
      unfold bestLagStep
      dsimp only
      rw [if_neg hx]]
    exact ih fun lag hl => h lag (List.mem_cons_of_mem _ hl)

/-- When the first lag's correlation is never beaten, it wins the fold. -/
theorem foldl_bestLagStep_head (d : ℕ → ℝ) (pos x : ℕ) (xs : List ℕ)
    (h : ∀ lag ∈ xs, ¬ (pitchCorr d pos x < pitchCorr d pos lag)) :
    (x :: xs).foldl (bestLagStep d pos) none = some (pitchCorr d pos x, x) := by
  simp only [List.foldl_cons]
  exact foldl_bestLagStep_stay d pos (pitchCorr d pos x) x xs h

/-- An all-zero frame is unvoiced: its pitch entry is `0`. -/
theorem pitchAt_zero (d : ℕ → ℝ) (sampleRate pos : ℕ)
    (hz : ∀ i, i < 2048 → d (pos + i) = 0) : pitchAt d sampleRate pos = 0 := by
  unfold pitchAt
  cases hl : pitchLagList sampleRate with
  | nil => rfl
  | cons x xs =>
    rw [foldl_bestLagStep_head d pos x xs (fun lag _ => by
      rw [pitchCorr_zero d pos lag hz, pitchCorr_zero d pos x hz]
      exact lt_irrefl 0)]
    rw [pitchCorr_zero d pos x hz]
    norm_num

/-- The RMS window of an all-zero frame is zero. -/
theorem rmsWindow_zero (d : ℕ → ℝ) (pos : ℕ)
    (hz : ∀ i, i < 2048 → d (pos + i) = 0) : rmsWindow d pos = 0 := by
  unfold rmsWindow
  rw [Finset.sum_eq_zero fun j hj => by rw [hz j (Finset.mem_range.mp hj)]; ring]
  simp

/-- The centroid of a frame with all-zero magnitudes is skipped as zero. -/
theorem centroidFrame_zero (d : ℕ → ℝ) (sampleRate fr : ℕ)
    (hz : ∀ i, i < 1024 → d (fr * 2048 + i) = 0) : centroidFrame d sampleRate fr = 0 := by
  unfold centroidFrame
  rw [Finset.sum_eq_zero fun i hi => by rw [hz i (Finset.mem_range.mp hi)]; simp]
  rw [if_neg (lt_irrefl 0)]

/-- A range sum of a function supported on one point. -/
theorem sum_range_one_support (n a : ℕ) (f : ℕ → ℝ) (ha : a < n)
    (hz : ∀ i, i < n → i ≠ a → f i = 0) : ∑ i ∈ range n, f i = f a := by
  have hsub : ({a} : Finset ℕ) ⊆ range n := by
    intro x hx
    rw [Finset.mem_singleton] at hx
    subst hx
    exact Finset.mem_range.mpr ha
  rw [← Finset.sum_subset hsub (fun x hx hnx => hz x (Finset.mem_range.mp hx)
    (by simpa using hnx))]
  exact Finset.sum_singleton _ _

/-- A range sum of a function supported on two points. -/
theorem sum_range_two_support (n a b : ℕ) (f : ℕ → ℝ) (ha : a < n) (hb : b < n) (hab : a ≠ b)
    (hz : ∀ i, i < n → i ≠ a → i ≠ b → f i = 0) : ∑ i ∈ range n, f i = f a + f b := by
  have hsub : ({a, b} : Finset ℕ) ⊆ range n := by
    intro x hx
    rw [Finset.mem_insert, Finset.mem_singleton] at hx
    rcases hx with rfl | rfl
    · exact Finset.mem_range.mpr ha
    · exact Finset.mem_range.mpr hb
  have hout : ∀ x ∈ range n, x ∉ ({a, b} : Finset ℕ) → f x = 0 := by
    intro x hx hnx
    rw [Finset.mem_insert, Finset.mem_singleton] at hnx
    push_neg at hnx
    exact hz x (Finset.mem_range.mp hx) hnx.1 hnx.2
  rw [← Finset.sum_subset hsub hout]
  exact Finset.sum_pair hab

/-- Copying all-zero data yields all-zero data. -/
theorem normalize_zeroData (n : ℕ) : normalize zeroData n = zeroData := by
  funext i
  unfold normalize zeroData
  split_ifs <;> rfl

/-- Copying the tail-spike data over its full 2049 samples changes nothing. -/
theorem normalize_tailSpike (a : ℝ) : normalize (tailSpikeData a) 2049 = tailSpikeData a := by
  funext i
  unfold normalize tailSpikeData
  rcases Nat.lt_or_ge i 2049 with h | h
  · rw [if_pos h]
  · rw [if_neg (by omega), if_neg (by omega)]

/-- Copying the double-spike data over its full 3073 samples changes nothing. -/
theorem normalize_doubleSpike : normalize doubleSpikeData 3073 = doubleSpikeData := by
  funext i
  unfold normalize doubleSpikeData
  rcases Nat.lt_or_ge i 3073 with h | h
  · rw [if_pos h]
  · rw [if_neg (by omega), if_neg (by omega), if_neg (by omega)]

/-- `log 10` exceeds 2 (via `exp 2 < 10`). -/
theorem two_lt_log_ten : (2 : ℝ) < Real.log 10 := by
  rw [Real.lt_log_iff_exp_lt (by norm_num : (0 : ℝ) < 10)]
  have h := Real.exp_one_lt_d9
  have hpos := Real.exp_pos 1
  have hsq : Real.exp 2 = Real.exp 1 * Real.exp 1 := by
    rw [← Real.exp_add]
    norm_num
  nlinarith

/-- The guard offset's logarithm: `log 1e-10 = -(10 log 10)`. -/
theorem log_epsilon_eq : Real.log 1e-10 = -(10 * Real.log 10) := by
  have h : (1e-10 : ℝ) = ((10 : ℝ) ^ (10 : ℕ))⁻¹ := by norm_num
  rw [h, Real.log_inv, Real.log_pow]
  push_cast
  ring

/-- `log(1e-10)² ≥ 400`. -/
theorem log_epsilon_sq_ge : 400 ≤ Real.log 1e-10 * Real.log 1e-10 := by
  rw [log_epsilon_eq]
  have h := two_lt_log_ten
  nlinarith

/-- `getD` of a replicated list inside its range. -/
theorem getD_replicate_lt (x : ℝ) (n j : ℕ) (hj : j < n) :
    (List.replicate n x).getD j 0 = x := by
  rw [List.getD_eq_getElem?_getD,
    List.getElem?_eq_getElem (by simpa using hj)]
  simp

/-- Cosine similarity of a vector with itself in terms of its squared norm. -/
theorem cosineSim_self (v : List ℝ) : cosineSim v v = vecSumSq v / (vecSumSq v + 1e-10) := by
  unfold cosineSim vecSumSq
  have h : 0 ≤ ∑ j ∈ range v.length, v.getD j 0 * v.getD j 0 :=
    Finset.sum_nonneg fun _ _ => mul_self_nonneg _
  rw [Real.sqrt_mul_self h]

/-- Squared norm of a replicated vector. -/
theorem vecSumSq_replicate (x : ℝ) (n : ℕ) :
    vecSumSq (List.replicate n x) = (n : ℝ) * (x * x) := by
  unfold vecSumSq
  rw [List.length_replicate,
    Finset.sum_congr rfl fun j hj => by
      rw [getD_replicate_lt x n j (Finset.mem_range.mp hj)],
    Finset.sum_const, Finset.card_range, nsmul_eq_mul]

/-- MFCC similarity of two single-frame feature lists. -/
theorem calculateMFCCSimilarity_single (v w : List ℝ) :
    calculateMFCCSimilarity [v] [w] = cosineSim v w := by
  unfold calculateMFCCSimilarity
  norm_num

/-- Correlation of two singleton envelopes is zero (zero variance). -/
theorem calculateCorrelation_single (x y : ℝ) : calculateCorrelation [x] [y] = 0 := by
  unfold calculateCorrelation corrVariance corrCross
  norm_num

/-- A 2049-sample buffer has one analysis frame at hop 512. -/
theorem framePositions_2049_512 : framePositions 2049 2048 512 = [0] := by
  unfold framePositions numFrames
  decide

/-- A 2049-sample buffer has one envelope window at hop 1024. -/
theorem framePositions_2049_1024 : framePositions 2049 2048 1024 = [0] := by
  unfold framePositions numFrames
  decide

/-- A 3073-sample buffer has three analysis frames at hop 512. -/
theorem framePositions_3073_512 : framePositions 3073 2048 512 = [0, 512, 1024] := by
  unfold framePositions numFrames
  decide

/-- A 3073-sample buffer has two envelope windows at hop 1024. -/
theorem framePositions_3073_1024 : framePositions 3073 2048 1024 = [0, 1024] := by
  unfold framePositions numFrames
  decide

/-- A 2048-sample buffer has no analysis frame (`pos < len - window` fails). -/
theorem framePositions_2048_512 : framePositions 2048 2048 512 = [] := by
  unfold framePositions numFrames
  decide

/-- A 2048-sample buffer has no envelope window. -/
theorem framePositions_2048_1024 : framePositions 2048 2048 1024 = [] := by
  unfold framePositions numFrames
  decide

/-- C6: whenever either envelope sequence has zero variance over the
compared prefix, the Pearson correlation is taken as `0`, the envelope term
is the remapped `(0+1)/2 = 1/2`, every similarity term stays inside `[0,1]`
(no NaN or infinity), and fusion completes with a score in `[0,100]`. -/
theorem C6_zero_variance_envelope (b1 b2 : AudioBuffer)
    (hl1 : 0 < b1.length) (hs1 : 0 < b1.sampleRate)
    (hl2 : 0 < b2.length) (hs2 : 0 < b2.sampleRate)
    (hvar :
      corrVariance (envCurveOf b1 (minLength b1 b2))
          (min (envCurveOf b1 (minLength b1 b2)).length (envCurveOf b2 (minLength b1 b2)).length) = 0 ∨
      corrVariance (envCurveOf b2 (minLength b1 b2))
          (min (envCurveOf b1 (minLength b1 b2)).length (envCurveOf b2 (minLength b1 b2)).length) = 0) :
    calculateCorrelation (envCurveOf b1 (minLength b1 b2)) (envCurveOf b2 (minLength b1 b2)) = 0 ∧
    envelopeMatchTerm b1 b2 = 1 / 2 ∧
    (0 ≤ mfccSimilarityTerm b1 b2 ∧ mfccSimilarityTerm b1 b2 ≤ 1) ∧
    (0 ≤ pitchMatchTerm b1 b2 ∧ pitchMatchTerm b1 b2 ≤ 1) ∧
    (0 ≤ spectralMatchTerm b1 b2 ∧ spectralMatchTerm b1 b2 ≤ 1) ∧
    (0 ≤ energyMatchTerm b1 b2 ∧ energyMatchTerm b1 b2 ≤ 1) ∧
    (0 ≤ durationMatchTerm b1 b2 ∧ durationMatchTerm b1 b2 ≤ 1) ∧
    (0 ≤ compareAudio b1 b2 ∧ compareAudio b1 b2 ≤ 100) := by
  have hcorr : calculateCorrelation (envCurveOf b1 (minLength b1 b2))
      (envCurveOf b2 (minLength b1 b2)) = 0 := by
    unfold calculateCorrelation
    split_ifs with h0 hd
    · rfl
    · rfl
    · exfalso
      apply hd
      rcases hvar with hv | hv <;> rw [hv] <;> simp
  refine ⟨hcorr, ?_, ?_, pitchMatchTerm_bounds b1 b2, spectralMatchTerm_bounds b1 b2,
    energyMatchTerm_bounds b1 b2, durationMatchTerm_bounds b1 b2 hl1 hs1 hl2 hs2,
    compareAudio_between b1 b2⟩
  · unfold envelopeMatchTerm
    rw [hcorr]
    norm_num
  · exact ⟨(mfccSimilarityTerm_bounds b1 b2).1, (mfccSimilarityTerm_bounds b1 b2).2.le⟩

/-- The envelope of the all-zero 2049-sample buffer is the singleton `[0]`. -/
theorem envCurveOf_zeroBuffer : envCurveOf zeroBuffer 2049 = [0] := by
  unfold envCurveOf calculateRMSEnergyCurve
  have hd : comparisonData zeroBuffer = zeroData := rfl
  rw [hd, normalize_zeroData, framePositions_2049_1024, List.map_cons, List.map_nil,
    rmsWindow_zero zeroData 0 (fun i _ => rfl)]

/-- Witness for C6: the all-zero buffer pair has a zero-variance envelope,
and the comparison indeed takes the correlation as 0 and the envelope term
as 1/2. -/
theorem C6_zero_variance_envelope_witness :
    corrVariance (envCurveOf zeroBuffer (minLength zeroBuffer zeroBuffer))
        (min (envCurveOf zeroBuffer (minLength zeroBuffer zeroBuffer)).length
          (envCurveOf zeroBuffer (minLength zeroBuffer zeroBuffer)).length) = 0 ∧
    calculateCorrelation (envCurveOf zeroBuffer (minLength zeroBuffer zeroBuffer))
        (envCurveOf zeroBuffer (minLength zeroBuffer zeroBuffer)) = 0 ∧
    envelopeMatchTerm zeroBuffer zeroBuffer = 1 / 2 := by
  have hmin : minLength zeroBuffer zeroBuffer = 2049 := rfl
  have hv : corrVariance (envCurveOf zeroBuffer (minLength zeroBuffer zeroBuffer))
      (min (envCurveOf zeroBuffer (minLength zeroBuffer zeroBuffer)).length
        (envCurveOf zeroBuffer (minLength zeroBuffer zeroBuffer)).length) = 0 := by
    rw [hmin, envCurveOf_zeroBuffer]
    unfold corrVariance
    norm_num
  have h := C6_zero_variance_envelope zeroBuffer zeroBuffer
    (by norm_num [zeroBuffer]) (by norm_num [zeroBuffer])
    (by norm_num [zeroBuffer]) (by norm_num [zeroBuffer]) (Or.inl hv)
  exact ⟨hv, h.1, h.2.1⟩

/-- `getD` inside the range is a member of the list. -/
theorem list_getD_mem {α : Type} (l : List α) (d : α) (n : ℕ) (h : n < l.length) :
    l.getD n d ∈ l := by
  rw [List.getD_eq_getElem?_getD, List.getElem?_eq_getElem h]
  exact List.getElem_mem h

/-- Every extracted feature vector has 13 entries. -/
theorem extractMFCCFeatures_length (d : ℕ → ℝ) (len sampleRate : ℕ) :
    ∀ v ∈ extractMFCCFeatures d len sampleRate, v.length = 13 := by
  intro v hv
  rcases List.mem_map.mp hv with ⟨pos, _, rfl⟩
  simp [mfccFrame]

/-- The linear alignment index stays inside its own sequence. -/
theorem align_index_lt (i L1 L2 : ℕ) (hi : i < min L1 L2) : i * L1 / min L1 L2 < L1 := by
  have hm : 0 < min L1 L2 := by omega
  have hL : 0 < L1 := lt_of_lt_of_le hm (min_le_left _ _)
  rw [Nat.div_lt_iff_lt_mul hm]
  calc i * L1 < min L1 L2 * L1 := (Nat.mul_lt_mul_right hL).mpr hi
  _ = L1 * min L1 L2 := Nat.mul_comm _ _

/-- Cosine similarity is symmetric for equal-length vectors. -/
theorem cosineSim_comm (f g : List ℝ) (h : f.length = g.length) :
    cosineSim f g = cosineSim g f := by
  unfold cosineSim
  rw [← h]
  rw [Finset.sum_congr rfl fun j _ => mul_comm (g.getD j 0) (f.getD j 0),
    mul_comm (∑ j ∈ range f.length, g.getD j 0 * g.getD j 0)
      (∑ j ∈ range f.length, f.getD j 0 * f.getD j 0)]

/-- MFCC similarity is symmetric when all feature vectors are 13-entry. -/
theorem calculateMFCCSimilarity_comm (F G : List (List ℝ))
    (hF : ∀ v ∈ F, v.length = 13) (hG : ∀ v ∈ G, v.length = 13) :
    calculateMFCCSimilarity F G = calculateMFCCSimilarity G F := by
  unfold calculateMFCCSimilarity
  rw [min_comm G.length F.length]
  by_cases h : F.length = 0 ∨ G.length = 0
  · rw [if_pos h, if_pos (Or.symm h)]
  · rw [if_neg h, if_neg (fun hc => h (Or.symm hc))]
    push_neg at h
    congr 1
    refine Finset.sum_congr rfl fun i hi => ?_
    have hi2 := Finset.mem_range.mp hi
    have hiF : i * F.length / min F.length G.length < F.length := align_index_lt i _ _ hi2
    have hiG : i * G.length / min F.length G.length < G.length := by
      have := align_index_lt i G.length F.length (by rwa [min_comm])
      rwa [min_comm] at this
    exact (cosineSim_comm _ _ (by
      rw [hG _ (list_getD_mem G [] _ hiG), hF _ (list_getD_mem F [] _ hiF)])).symm

/-- A pitch pair's contribution is symmetric. -/
theorem pitchPair_comm (p1 p2 : ℝ) : pitchPair p1 p2 = pitchPair p2 p1 := by
  unfold pitchPair
  rw [if_congr and_comm rfl (if_congr or_comm rfl (by rw [abs_sub_comm, max_comm]))]

/-- The pitch-contour match is symmetric. -/
theorem calculatePitchContourMatch_comm (c1 c2 : List ℝ) :
    calculatePitchContourMatch c1 c2 = calculatePitchContourMatch c2 c1 := by
  unfold calculatePitchContourMatch
  rw [min_comm c2.length c1.length]
  have e1 : (∑ i ∈ range (min c1.length c2.length),
      (pitchPair (c2.getD (i * c2.length / min c1.length c2.length) 0)
        (c1.getD (i * c1.length / min c1.length c2.length) 0)).1) =
      ∑ i ∈ range (min c1.length c2.length),
        (pitchPair (c1.getD (i * c1.length / min c1.length c2.length) 0)
          (c2.getD (i * c2.length / min c1.length c2.length) 0)).1 :=
    Finset.sum_congr rfl fun i _ => by rw [pitchPair_comm]
  have e2 : (∑ i ∈ range (min c1.length c2.length),
      (pitchPair (c2.getD (i * c2.length / min c1.length c2.length) 0)
        (c1.getD (i * c1.length / min c1.length c2.length) 0)).2) =
      ∑ i ∈ range (min c1.length c2.length),
        (pitchPair (c1.getD (i * c1.length / min c1.length c2.length) 0)
          (c2.getD (i * c2.length / min c1.length c2.length) 0)).2 :=
    Finset.sum_congr rfl fun i _ => by rw [pitchPair_comm]
  rw [e1, e2]
  by_cases h : c1.length = 0 ∨ c2.length = 0
  · rw [if_pos h, if_pos (Or.symm h)]
  · rw [if_neg h, if_neg (fun hc => h (Or.symm hc))]

/-- The cross term of the correlation is symmetric. -/
theorem corrCross_comm (a1 a2 : List ℝ) (n : ℕ) : corrCross a1 a2 n = corrCross a2 a1 n := by
  unfold corrCross
  rw [Finset.sum_congr rfl fun i _ => mul_comm (a2.getD i 0) (a1.getD i 0),
    mul_comm (∑ i ∈ range n, a2.getD i 0) (∑ i ∈ range n, a1.getD i 0)]

/-- The correlation is symmetric. -/
theorem calculateCorrelation_comm (a1 a2 : List ℝ) :
    calculateCorrelation a1 a2 = calculateCorrelation a2 a1 := by
  unfold calculateCorrelation
  rw [min_comm a2.length a1.length,
    mul_comm (corrVariance a2 (min a1.length a2.length)) (corrVariance a1 (min a1.length a2.length)),
    corrCross_comm a2 a1 (min a1.length a2.length)]

/-- `minLength` is symmetric. -/
theorem minLength_comm (b1 b2 : AudioBuffer) : minLength b2 b1 = minLength b1 b2 :=
  min_comm _ _

/-- The timbre term is symmetric when the sample rates agree. -/
theorem mfccSimilarityTerm_comm (b1 b2 : AudioBuffer) (hsr : b1.sampleRate = b2.sampleRate) :
    mfccSimilarityTerm b1 b2 = mfccSimilarityTerm b2 b1 := by
  unfold mfccSimilarityTerm
  rw [minLength_comm b1 b2, ← hsr,
    calculateMFCCSimilarity_comm _ _ (extractMFCCFeatures_length _ _ _) (extractMFCCFeatures_length _ _ _)]

/-- The pitch term is symmetric when the sample rates agree. -/
theorem pitchMatchTerm_comm (b1 b2 : AudioBuffer) (hsr : b1.sampleRate = b2.sampleRate) :
    pitchMatchTerm b1 b2 = pitchMatchTerm b2 b1 := by
  unfold pitchMatchTerm
  rw [minLength_comm b1 b2, ← hsr, calculatePitchContourMatch_comm]

/-- The envelope term is symmetric. -/
theorem envelopeMatchTerm_comm (b1 b2 : AudioBuffer) :
    envelopeMatchTerm b1 b2 = envelopeMatchTerm b2 b1 := by
  unfold envelopeMatchTerm
  rw [minLength_comm b1 b2, calculateCorrelation_comm]

/-- The spectral-centroid term is symmetric when the sample rates agree. -/
theorem spectralMatchTerm_comm (b1 b2 : AudioBuffer) (hsr : b1.sampleRate = b2.sampleRate) :
    spectralMatchTerm b1 b2 = spectralMatchTerm b2 b1 := by
  unfold spectralMatchTerm
  rw [minLength_comm b1 b2, ← hsr, abs_sub_comm, max_left_comm]

/-- The energy term is symmetric. -/
theorem energyMatchTerm_comm (b1 b2 : AudioBuffer) :
    energyMatchTerm b1 b2 = energyMatchTerm b2 b1 := by
  unfold energyMatchTerm
  rw [minLength_comm b1 b2, min_comm, max_left_comm]

/-- The duration term is symmetric. -/
theorem durationMatchTerm_comm (b1 b2 : AudioBuffer) :
    durationMatchTerm b1 b2 = durationMatchTerm b2 b1 := by
  unfold durationMatchTerm
  rw [abs_sub_comm, max_comm]

/-- C4 (amended): the comparison is symmetric whenever the two buffers
share a sample rate (the source runs every extractor at
`buffer1.sampleRate`, so equality of rates is needed). -/
theorem C4_symmetric_same_rate (b1 b2 : AudioBuffer) (hsr : b1.sampleRate = b2.sampleRate) :
    compareAudio b1 b2 = compareAudio b2 b1 := by
  unfold compareAudio
  rw [show rawScore b1 b2 = rawScore b2 b1 by
    unfold rawScore
    rw [mfccSimilarityTerm_comm b1 b2 hsr, pitchMatchTerm_comm b1 b2 hsr,
      envelopeMatchTerm_comm b1 b2, spectralMatchTerm_comm b1 b2 hsr,
      energyMatchTerm_comm b1 b2, durationMatchTerm_comm b1 b2]]

/-- Witness for the amended C4 at two concrete equal-rate buffers. -/
theorem C4_symmetric_same_rate_witness :
    zeroBuffer.sampleRate = (tailSpikeBuffer 1).sampleRate ∧
      compareAudio zeroBuffer (tailSpikeBuffer 1) = compareAudio (tailSpikeBuffer 1) zeroBuffer :=
  ⟨rfl, C4_symmetric_same_rate zeroBuffer (tailSpikeBuffer 1) rfl⟩

/-- No MFCC frames: the similarity guard returns 0. -/
theorem calculateMFCCSimilarity_nil : calculateMFCCSimilarity [] [] = 0 := by
  unfold calculateMFCCSimilarity
  norm_num

/-- No pitch frames: the neutral value 0.5. -/
theorem calculatePitchContourMatch_nil : calculatePitchContourMatch [] [] = 0.5 := by
  unfold calculatePitchContourMatch
  norm_num

/-- Empty envelopes: correlation 0. -/
theorem calculateCorrelation_nil : calculateCorrelation [] [] = 0 := by
  unfold calculateCorrelation
  norm_num

/-- 2048 samples yield no MFCC frame. -/
theorem extractMFCCFeatures_2048 (d : ℕ → ℝ) (sampleRate : ℕ) :
    extractMFCCFeatures d 2048 sampleRate = [] := by
  unfold extractMFCCFeatures
  rw [framePositions_2048_512]
  rfl

/-- 2048 samples yield no pitch frame. -/
theorem extractPitchContour_2048 (d : ℕ → ℝ) (sampleRate : ℕ) :
    extractPitchContour d 2048 sampleRate = [] := by
  unfold extractPitchContour
  rw [framePositions_2048_512]
  rfl

/-- 2048 samples yield no envelope window. -/
theorem calculateRMSEnergyCurve_2048 (d : ℕ → ℝ) :
    calculateRMSEnergyCurve d 2048 = [] := by
  unfold calculateRMSEnergyCurve
  rw [framePositions_2048_1024]
  rfl

/-- The normalized copy of `symBufferA`'s channel is its spike function. -/
theorem symA_data :
    normalize (comparisonData symBufferA) 2048 = fun i => if i = 0 then (1 : ℝ) else 0 := by
  funext i
  simp only [normalize, comparisonData, symBufferA]
  rcases Nat.lt_or_ge i 2048 with h | h
  · rw [if_pos h]
  · rw [if_neg (by omega), if_neg (by omega)]

/-- The normalized copy of `symBufferB`'s channel is its two-spike function. -/
theorem symB_data :
    normalize (comparisonData symBufferB) 2048 =
      fun i => if i = 0 then (9999 / 10001 : ℝ) else if i = 1 then 200 / 10001 else 0 := by
  funext i
  simp only [normalize, comparisonData, symBufferB]
  rcases Nat.lt_or_ge i 2048 with h | h
  · rw [if_pos h]
  · rw [if_neg (by omega), if_neg (by omega), if_neg (by omega)]

/-- Spectral centroid of the unit spike at sample 0: zero (all weight at
frequency 0). -/
theorem centroid_spikeA (sampleRate : ℕ) :
    calculateSpectralCentroid (fun i => if i = 0 then (1 : ℝ) else 0) 2048 sampleRate = 0 := by
  unfold calculateSpectralCentroid
  rw [if_pos (by norm_num : 0 < 2048 / 2048)]
  rw [show (2048 : ℕ) / 2048 = 1 from rfl, Finset.sum_range_one]
  unfold centroidFrame
  have hmag : ∑ i ∈ range 1024,
      |(fun i => if i = 0 then (1 : ℝ) else 0) (0 * 2048 + i)| = 1 := by
    rw [sum_range_one_support 1024 0 _ (by norm_num)
      (fun i _ h0 => by simp [h0])]
    norm_num
  have hw : ∑ i ∈ range 1024,
      binFreq sampleRate i * |(fun i => if i = 0 then (1 : ℝ) else 0) (0 * 2048 + i)| = 0 := by
    rw [sum_range_one_support 1024 0 _ (by norm_num)
      (fun i _ h0 => by simp [h0])]
    simp [binFreq]
  rw [hmag, hw, if_pos (by norm_num : (0 : ℝ) < 1)]
  norm_num

/-- Spectral centroid of the two-spike candidate at a given analysis rate. -/
theorem centroid_spikeB (sampleRate : ℕ) :
    calculateSpectralCentroid
        (fun i => if i = 0 then (9999 / 10001 : ℝ) else if i = 1 then 200 / 10001 else 0)
        2048 sampleRate = (sampleRate : ℝ) * 200 / (2048 * 10199) := by
  unfold calculateSpectralCentroid
  rw [if_pos (by norm_num : 0 < 2048 / 2048)]
  rw [show (2048 : ℕ) / 2048 = 1 from rfl, Finset.sum_range_one]
  unfold centroidFrame
  have hmag : ∑ i ∈ range 1024,
      |(fun i => if i = 0 then (9999 / 10001 : ℝ) else if i = 1 then 200 / 10001 else 0)
        (0 * 2048 + i)| = 10199 / 10001 := by
    rw [sum_range_two_support 1024 0 1 _ (by norm_num) (by norm_num) (by norm_num)
      (fun i _ h0 h1 => by simp [h0, h1])]
    norm_num
    rw [abs_of_nonneg (by norm_num : (0 : ℝ) ≤ 9999 / 10001),
      abs_of_nonneg (by norm_num : (0 : ℝ) ≤ 200 / 10001)]
    norm_num
  have hw : ∑ i ∈ range 1024,
      binFreq sampleRate i *
        |(fun i => if i = 0 then (9999 / 10001 : ℝ) else if i = 1 then 200 / 10001 else 0)
          (0 * 2048 + i)| = (sampleRate : ℝ) / 2048 * (200 / 10001) := by
    rw [sum_range_two_support 1024 0 1 _ (by norm_num) (by norm_num) (by norm_num)
      (fun i _ h0 h1 => by simp [h0, h1])]
    simp only [binFreq]
    norm_num
  rw [hmag, hw, if_pos (by norm_num : (0 : ℝ) < 10199 / 10001)]
  field_simp
  ring

/-- Both comparison buffers of the symmetry counterexample carry unit
energy, so the energy term is exactly 1. -/
theorem energy_sym : energyMatchTerm symBufferA symBufferB = 1 := by
  unfold energyMatchTerm
  have hmin : minLength symBufferA symBufferB = 2048 := rfl
  rw [hmin, symA_data, symB_data]
  have hA : rmsEnergy (fun i => if i = 0 then (1 : ℝ) else 0) 2048 = Real.sqrt (1 / 2048) := by
    unfold rmsEnergy
    rw [sum_range_one_support 2048 0 _ (by norm_num) (fun i _ h0 => by simp [h0])]
    norm_num
  have hB : rmsEnergy
      (fun i => if i = 0 then (9999 / 10001 : ℝ) else if i = 1 then 200 / 10001 else 0) 2048 =
      Real.sqrt (1 / 2048) := by
    unfold rmsEnergy
    rw [sum_range_two_support 2048 0 1 _ (by norm_num) (by norm_num) (by norm_num)
      (fun i _ h0 h1 => by simp [h0, h1])]
    norm_num
  rw [hA, hB, min_self]
  have hr : (0.001 : ℝ) ≤ Real.sqrt (1 / 2048) := by
    rw [show (0.001 : ℝ) = Real.sqrt (1e-6) by
      rw [show (1e-6 : ℝ) = 0.001 ^ 2 by norm_num, Real.sqrt_sq (by norm_num)]]
    exact Real.sqrt_le_sqrt (by norm_num)
  have hpos : 0 < Real.sqrt (1 / 2048) := Real.sqrt_pos.mpr (by norm_num)
  rw [max_eq_left hr, max_self]
  exact div_self hpos.ne'

/-- Duration term of the symmetry counterexample: `1/6`. -/
theorem duration_sym : durationMatchTerm symBufferA symBufferB = 1 / 6 := by
  unfold durationMatchTerm AudioBuffer.duration
  simp only [symBufferA, symBufferB]
  rw [max_eq_right (by push_cast; norm_num)]
  rw [abs_of_nonpos (by push_cast; norm_num)]
  push_cast
  norm_num

/-- C4 fails on the code: with different sample rates the comparison is not
symmetric, because both extractions run at `buffer1.sampleRate`.  The
concrete pair scores 34 one way and 38 the other. -/
theorem C4_counterexample :
    compareAudio symBufferA symBufferB = 34 ∧ compareAudio symBufferB symBufferA = 38 ∧
      compareAudio symBufferA symBufferB ≠ compareAudio symBufferB symBufferA := by
  have hminAB : minLength symBufferA symBufferB = 2048 := rfl
  have hminBA : minLength symBufferB symBufferA = 2048 := rfl
  have hmfccAB : mfccSimilarityTerm symBufferA symBufferB = 1 / 2 := by
    unfold mfccSimilarityTerm
    rw [hminAB, extractMFCCFeatures_2048, extractMFCCFeatures_2048, calculateMFCCSimilarity_nil]
    norm_num
  have hmfccBA : mfccSimilarityTerm symBufferB symBufferA = 1 / 2 := by
    unfold mfccSimilarityTerm
    rw [hminBA, extractMFCCFeatures_2048, extractMFCCFeatures_2048, calculateMFCCSimilarity_nil]
    norm_num
  have hpitchAB : pitchMatchTerm symBufferA symBufferB = 0.5 := by
    unfold pitchMatchTerm
    rw [hminAB, extractPitchContour_2048, extractPitchContour_2048, calculatePitchContourMatch_nil]
  have hpitchBA : pitchMatchTerm symBufferB symBufferA = 0.5 := by
    unfold pitchMatchTerm
    rw [hminBA, extractPitchContour_2048, extractPitchContour_2048, calculatePitchContourMatch_nil]
  have henvAB : envelopeMatchTerm symBufferA symBufferB = 1 / 2 := by
    unfold envelopeMatchTerm envCurveOf
    rw [hminAB, calculateRMSEnergyCurve_2048, calculateRMSEnergyCurve_2048, calculateCorrelation_nil]
    norm_num
  have henvBA : envelopeMatchTerm symBufferB symBufferA = 1 / 2 := by
    unfold envelopeMatchTerm envCurveOf
    rw [hminBA, calculateRMSEnergyCurve_2048, calculateRMSEnergyCurve_2048, calculateCorrelation_nil]
    norm_num
  have hspAB : spectralMatchTerm symBufferA symBufferB = 1 - 9375 / 20398 := by
    unfold spectralMatchTerm
    rw [hminAB, symA_data, symB_data]
    rw [show symBufferA.sampleRate = 48000 from rfl, centroid_spikeA, centroid_spikeB]
    rw [show ((48000 : ℕ) : ℝ) * 200 / (2048 * 10199) = 9375 / 20398 by norm_num]
    rw [show max (9375 / 20398 : ℝ) 1 = 1 from max_eq_right (by norm_num)]
    rw [show max (0 : ℝ) 1 = 1 from max_eq_right (by norm_num)]
    rw [show |(0 : ℝ) - 9375 / 20398| = 9375 / 20398 by
      rw [abs_of_nonpos (by norm_num)]
      norm_num]
    rw [div_one, min_eq_right (by norm_num)]
  have hspBA : spectralMatchTerm symBufferB symBufferA = 1 - 3125 / 40796 := by
    unfold spectralMatchTerm
    rw [hminBA, symA_data, symB_data]
    rw [show symBufferB.sampleRate = 8000 from rfl, centroid_spikeA, centroid_spikeB]
    rw [show ((8000 : ℕ) : ℝ) * 200 / (2048 * 10199) = 3125 / 40796 by norm_num]
    rw [show max (0 : ℝ) 1 = 1 from max_eq_right (by norm_num)]
    rw [show max (3125 / 40796 : ℝ) 1 = 1 from max_eq_right (by norm_num)]
    rw [show |(3125 / 40796 : ℝ) - 0| = 3125 / 40796 by
      rw [sub_zero, abs_of_nonneg (by norm_num)]]
    rw [div_one, min_eq_right (by norm_num)]
  have henAB : energyMatchTerm symBufferA symBufferB = 1 := energy_sym
  have henBA : energyMatchTerm symBufferB symBufferA = 1 := by
    rw [energyMatchTerm_comm symBufferB symBufferA]
    exact energy_sym
  have hduAB : durationMatchTerm symBufferA symBufferB = 1 / 6 := duration_sym
  have hduBA : durationMatchTerm symBufferB symBufferA = 1 / 6 := by
    rw [durationMatchTerm_comm symBufferB symBufferA]
    exact duration_sym
  have hrawAB : rawScore symBufferA symBufferB = 0.475 + 11023 / 203980 + 1 / 120 := by
    unfold rawScore
    rw [hmfccAB, hpitchAB, henvAB, hspAB, henAB, hduAB]
    norm_num
  have hrawBA : rawScore symBufferB symBufferA = 0.475 + 37671 / 407960 + 1 / 120 := by
    unfold rawScore
    rw [hmfccBA, hpitchBA, henvBA, hspBA, henBA, hduBA]
    norm_num
  have hAB : compareAudio symBufferA symBufferB = 34 := by
    unfold compareAudio curveAdjust
    rw [hrawAB]
    rw [if_neg (by norm_num), if_pos (by norm_num)]
    rw [min_eq_right (by norm_num), max_eq_right (by norm_num)]
    unfold jsRound
    rw [Int.floor_eq_iff]
    constructor <;> push_cast <;> norm_num
  have hBA : compareAudio symBufferB symBufferA = 38 := by
    unfold compareAudio curveAdjust
    rw [hrawBA]
    rw [if_neg (by norm_num), if_pos (by norm_num)]
    rw [min_eq_right (by norm_num), max_eq_right (by norm_num)]
    unfold jsRound
    rw [Int.floor_eq_iff]
    constructor <;> push_cast <;> norm_num
  exact ⟨hAB, hBA, by rw [hAB, hBA]; norm_num⟩

/-- The tail-spike data vanishes below index 2048. -/
theorem tailSpikeData_head_zero (a : ℝ) : ∀ i, i < 2048 → tailSpikeData a i = 0 :=
  fun i hi => by
    unfold tailSpikeData
    rw [if_neg (by omega)]

/-- MFCC features of a 2049-sample waveform whose first 2048 samples are
zero: a single all-`log 1e-10` vector. -/
theorem extractMFCCFeatures_headzero (d : ℕ → ℝ) (sampleRate : ℕ)
    (hz : ∀ i, i < 2048 → d i = 0) :
    extractMFCCFeatures d 2049 sampleRate = [List.replicate 13 (Real.log 1e-10)] := by
  unfold extractMFCCFeatures
  rw [framePositions_2049_512, List.map_cons, List.map_nil,
    mfccFrame_zero d sampleRate 0 (fun i hi => by rw [Nat.zero_add]; exact hz i (by omega))]

/-- Pitch contour of such a waveform: one unvoiced frame. -/
theorem extractPitchContour_headzero (d : ℕ → ℝ) (sampleRate : ℕ)
    (hz : ∀ i, i < 2048 → d i = 0) :
    extractPitchContour d 2049 sampleRate = [0] := by
  unfold extractPitchContour
  rw [framePositions_2049_512, List.map_cons, List.map_nil,
    pitchAt_zero d sampleRate 0 (fun i hi => by rw [Nat.zero_add]; exact hz i (by omega))]

/-- RMS curve of such a waveform: a single zero window. -/
theorem calculateRMSEnergyCurve_headzero (d : ℕ → ℝ)
    (hz : ∀ i, i < 2048 → d i = 0) :
    calculateRMSEnergyCurve d 2049 = [0] := by
  unfold calculateRMSEnergyCurve
  rw [framePositions_2049_1024, List.map_cons, List.map_nil,
    rmsWindow_zero d 0 (fun i hi => by rw [Nat.zero_add]; exact hz i (by omega))]

/-- Spectral centroid of such a waveform: the single frame is skipped. -/
theorem calculateSpectralCentroid_headzero (d : ℕ → ℝ) (sampleRate : ℕ)
    (hz : ∀ i, i < 2048 → d i = 0) :
    calculateSpectralCentroid d 2049 sampleRate = 0 := by
  unfold calculateSpectralCentroid
  rw [show (2049 : ℕ) / 2048 = 1 from rfl]
  rw [if_pos (by norm_num : (0 : ℕ) < 1), Finset.sum_range_one,
    centroidFrame_zero d sampleRate 0 (fun i hi => hz (0 * 2048 + i) (by omega))]
  norm_num

/-- Pitch match of two single-entry unvoiced contours: neutral 0.5. -/
theorem calculatePitchContourMatch_both_unvoiced :
    calculatePitchContourMatch [(0 : ℝ)] [(0 : ℝ)] = 0.5 := by
  unfold calculatePitchContourMatch pitchPair
  norm_num

/-- The timbre term of two single-frame all-`log 1e-10` feature extractions
is `(c+1)/2` for `c = S/(S+1e-10)`, `S = 13·log(1e-10)² ≥ 5200`; it lies in
`[1 - 1e-14, 1)`. -/
theorem mfccSimilarityTerm_degenerate (b1 b2 : AudioBuffer)
    (h1 : extractMFCCFeatures (normalize (comparisonData b1) (minLength b1 b2))
      (minLength b1 b2) b1.sampleRate = [List.replicate 13 (Real.log 1e-10)])
    (h2 : extractMFCCFeatures (normalize (comparisonData b2) (minLength b1 b2))
      (minLength b1 b2) b1.sampleRate = [List.replicate 13 (Real.log 1e-10)]) :
    1 - 1e-14 ≤ mfccSimilarityTerm b1 b2 ∧ mfccSimilarityTerm b1 b2 < 1 := by
  unfold mfccSimilarityTerm
  rw [h1, h2, calculateMFCCSimilarity_single, cosineSim_self, vecSumSq_replicate]
  push_cast
  have hS : (5200 : ℝ) ≤ 13 * (Real.log 1e-10 * Real.log 1e-10) := by
    have h := log_epsilon_sq_ge
    linarith
  set S := (13 : ℝ) * (Real.log 1e-10 * Real.log 1e-10) with hSd
  have hden : (0 : ℝ) < S + 1e-10 := by linarith
  have hc1 : S / (S + 1e-10) < 1 := (div_lt_one hden).mpr (by linarith)
  have hc2 : 1 - 2e-14 ≤ S / (S + 1e-10) := by
    rw [le_div_iff₀ hden]
    nlinarith
  constructor <;> linarith

/-- Pitch term of the tail-spike / zero family: both contours are `[0]`. -/
theorem pitchMatchTerm_headzero (b1 b2 : AudioBuffer)
    (hm : minLength b1 b2 = 2049)
    (h1 : ∀ i, i < 2048 → normalize (comparisonData b1) 2049 i = 0)
    (h2 : ∀ i, i < 2048 → normalize (comparisonData b2) 2049 i = 0) :
    pitchMatchTerm b1 b2 = 0.5 := by
  unfold pitchMatchTerm
  rw [hm, extractPitchContour_headzero _ _ h1, extractPitchContour_headzero _ _ h2,
    calculatePitchContourMatch_both_unvoiced]

/-- Envelope term of the tail-spike / zero family: both curves are `[0]`. -/
theorem envelopeMatchTerm_headzero (b1 b2 : AudioBuffer)
    (hm : minLength b1 b2 = 2049)
    (h1 : ∀ i, i < 2048 → normalize (comparisonData b1) 2049 i = 0)
    (h2 : ∀ i, i < 2048 → normalize (comparisonData b2) 2049 i = 0) :
    envelopeMatchTerm b1 b2 = 0.5 := by
  unfold envelopeMatchTerm envCurveOf
  rw [hm, calculateRMSEnergyCurve_headzero _ h1, calculateRMSEnergyCurve_headzero _ h2,
    calculateCorrelation_single]
  norm_num

/-- Spectral term of the tail-spike / zero family: both centroids vanish. -/
theorem spectralMatchTerm_headzero (b1 b2 : AudioBuffer)
    (hm : minLength b1 b2 = 2049)
    (h1 : ∀ i, i < 2048 → normalize (comparisonData b1) 2049 i = 0)
    (h2 : ∀ i, i < 2048 → normalize (comparisonData b2) 2049 i = 0) :
    spectralMatchTerm b1 b2 = 1 := by
  unfold spectralMatchTerm
  rw [hm, calculateSpectralCentroid_headzero _ _ h1, calculateSpectralCentroid_headzero _ _ h2]
  rw [sub_self, abs_zero, zero_div, min_eq_right (by norm_num : (0 : ℝ) ≤ 1), sub_zero]

/-- The normalized tail-spike data is zero below index 2048. -/
theorem tailSpike_normalized_headzero (a : ℝ) :
    ∀ i, i < 2048 → normalize (tailSpikeData a) 2049 i = 0 := by
  intro i hi
  rw [normalize_tailSpike]
  exact tailSpikeData_head_zero a i hi

/-- RMS of the tail-spike data over 2049 samples. -/
theorem rmsEnergy_tailSpike (a : ℝ) :
    rmsEnergy (normalize (tailSpikeData a) 2049) 2049 = Real.sqrt (a * a / 2049) := by
  rw [normalize_tailSpike]
  unfold rmsEnergy
  rw [sum_range_one_support 2049 2048 _ (by norm_num)
    (fun i _ hne => by unfold tailSpikeData; rw [if_neg hne]; ring)]
  unfold tailSpikeData
  rw [if_pos rfl]
  norm_num

/-- RMS of the all-zero data. -/
theorem rmsEnergy_zeroData (n : ℕ) : rmsEnergy (normalize zeroData n) n = 0 := by
  rw [normalize_zeroData]
  unfold rmsEnergy
  rw [Finset.sum_eq_zero fun i _ => by unfold zeroData; ring]
  simp

/-- `sqrt(1/2049)` clears the `0.001` guard. -/
theorem sqrt_inv2049_ge : (0.001 : ℝ) ≤ Real.sqrt (1 * 1 / 2049) := by
  rw [show (0.001 : ℝ) = Real.sqrt 1e-6 by
    rw [show (1e-6 : ℝ) = 0.001 ^ 2 by norm_num, Real.sqrt_sq (by norm_num)]]
  exact Real.sqrt_le_sqrt (by norm_num)

/-- C1 (amended): the comparison computes exactly the claimed procedure
with the source's high-branch constant `166.67` in place of `166.667`. -/
theorem C1_fusion_formula (b1 b2 : AudioBuffer) :
    compareAudio b1 b2 = jsRound (max 0 (min 100 (curveAdjust
      (0.35 * mfccSimilarityTerm b1 b2 + 0.25 * pitchMatchTerm b1 b2 +
        0.15 * envelopeMatchTerm b1 b2 + 0.10 * spectralMatchTerm b1 b2 +
        0.10 * energyMatchTerm b1 b2 + 0.05 * durationMatchTerm b1 b2)))) := by
  unfold compareAudio
  rw [show rawScore b1 b2 =
      0.35 * mfccSimilarityTerm b1 b2 + 0.25 * pitchMatchTerm b1 b2 +
        0.15 * envelopeMatchTerm b1 b2 + 0.10 * spectralMatchTerm b1 b2 +
        0.10 * energyMatchTerm b1 b2 + 0.05 * durationMatchTerm b1 b2 by
    unfold rawScore
    ring]

/-- C1 fails as stated: on this concrete pair the code (constant `166.67`)
reports 67 while the claimed remap (constant `166.667`) yields 66. -/
theorem C1_counterexample :
    compareAudio (tailSpikeBuffer (98999 / 100000)) (tailSpikeBuffer 1) = 67 ∧
    claimScore (tailSpikeBuffer (98999 / 100000)) (tailSpikeBuffer 1) = 66 ∧
    compareAudio (tailSpikeBuffer (98999 / 100000)) (tailSpikeBuffer 1) ≠
      claimScore (tailSpikeBuffer (98999 / 100000)) (tailSpikeBuffer 1) := by
  set a : ℝ := 98999 / 100000 with ha
  have hmin : minLength (tailSpikeBuffer a) (tailSpikeBuffer 1) = 2049 := rfl
  have hcd1 : comparisonData (tailSpikeBuffer a) = tailSpikeData a := rfl
  have hcd2 : comparisonData (tailSpikeBuffer 1) = tailSpikeData 1 := rfl
  have hz1 : ∀ i, i < 2048 → normalize (comparisonData (tailSpikeBuffer a)) 2049 i = 0 := by
    rw [hcd1]
    exact tailSpike_normalized_headzero a
  have hz2 : ∀ i, i < 2048 → normalize (comparisonData (tailSpikeBuffer 1)) 2049 i = 0 := by
    rw [hcd2]
    exact tailSpike_normalized_headzero 1
  have hfeat1 : extractMFCCFeatures
      (normalize (comparisonData (tailSpikeBuffer a)) (minLength (tailSpikeBuffer a) (tailSpikeBuffer 1)))
      (minLength (tailSpikeBuffer a) (tailSpikeBuffer 1)) (tailSpikeBuffer a).sampleRate =
      [List.replicate 13 (Real.log 1e-10)] := by
    rw [hmin]
    exact extractMFCCFeatures_headzero _ _ hz1
  have hfeat2 : extractMFCCFeatures
      (normalize (comparisonData (tailSpikeBuffer 1)) (minLength (tailSpikeBuffer a) (tailSpikeBuffer 1)))
      (minLength (tailSpikeBuffer a) (tailSpikeBuffer 1)) (tailSpikeBuffer a).sampleRate =
      [List.replicate 13 (Real.log 1e-10)] := by
    rw [hmin]
    exact extractMFCCFeatures_headzero _ _ hz2
  have hmfcc := mfccSimilarityTerm_degenerate (tailSpikeBuffer a) (tailSpikeBuffer 1) hfeat1 hfeat2
  have hpitch := pitchMatchTerm_headzero (tailSpikeBuffer a) (tailSpikeBuffer 1) hmin hz1 hz2
  have henv := envelopeMatchTerm_headzero (tailSpikeBuffer a) (tailSpikeBuffer 1) hmin hz1 hz2
  have hsp := spectralMatchTerm_headzero (tailSpikeBuffer a) (tailSpikeBuffer 1) hmin hz1 hz2
  have hen : energyMatchTerm (tailSpikeBuffer a) (tailSpikeBuffer 1) = a := by
    unfold energyMatchTerm
    rw [hmin, hcd1, hcd2, rmsEnergy_tailSpike a, rmsEnergy_tailSpike 1]
    have hle : Real.sqrt (a * a / 2049) ≤ Real.sqrt (1 * 1 / 2049) :=
      Real.sqrt_le_sqrt (by rw [ha]; norm_num)
    rw [min_eq_left hle, max_eq_left sqrt_inv2049_ge, max_eq_right hle]
    rw [← Real.sqrt_div (by positivity : (0 : ℝ) ≤ a * a / 2049)]
    rw [show (a * a / 2049) / (1 * 1 / 2049) = a * a by norm_num]
    exact Real.sqrt_mul_self (by rw [ha]; norm_num)
  have hdur : durationMatchTerm (tailSpikeBuffer a) (tailSpikeBuffer 1) = 1 :=
    durationMatchTerm_eq_one _ _ rfl
  set t := mfccSimilarityTerm (tailSpikeBuffer a) (tailSpikeBuffer 1) with hts
  have ht1 : 1 - 1e-14 ≤ t := hmfcc.1
  have ht2 : t < 1 := hmfcc.2
  have hraw : rawScore (tailSpikeBuffer a) (tailSpikeBuffer 1) = t * 0.35 + 0.448999 := by
    unfold rawScore
    rw [← hts, hpitch, henv, hsp, hen, hdur, ha]
    ring
  have hcode : compareAudio (tailSpikeBuffer a) (tailSpikeBuffer 1) = 67 := by
    unfold compareAudio curveAdjust
    rw [hraw, if_pos (by linarith)]
    rw [min_eq_right (by linarith), max_eq_right (by linarith)]
    unfold jsRound
    rw [Int.floor_eq_iff]
    constructor
    · push_cast
      linarith
    · push_cast
      linarith
  have hclaim : claimScore (tailSpikeBuffer a) (tailSpikeBuffer 1) = 66 := by
    unfold claimScore claimRemap
    rw [show 0.35 * mfccSimilarityTerm (tailSpikeBuffer a) (tailSpikeBuffer 1) +
        0.25 * pitchMatchTerm (tailSpikeBuffer a) (tailSpikeBuffer 1) +
        0.15 * envelopeMatchTerm (tailSpikeBuffer a) (tailSpikeBuffer 1) +
        0.10 * spectralMatchTerm (tailSpikeBuffer a) (tailSpikeBuffer 1) +
        0.10 * energyMatchTerm (tailSpikeBuffer a) (tailSpikeBuffer 1) +
        0.05 * durationMatchTerm (tailSpikeBuffer a) (tailSpikeBuffer 1) = t * 0.35 + 0.448999 by
      rw [← hts, hpitch, henv, hsp, hen, hdur, ha]
      ring]
    rw [if_pos (by linarith)]
    rw [min_eq_right (by linarith), max_eq_right (by linarith)]
    unfold jsRound
    rw [Int.floor_eq_iff]
    constructor
    · push_cast
      linarith
    · push_cast
      linarith
  exact ⟨hcode, hclaim, by rw [hcode, hclaim]; norm_num⟩

/-- C3 fails as stated: the all-zero pair is bit-identical, yet the raw
score sits just below 0.7 (not near 1.0) and the reported score is 50. -/
theorem C3_counterexample :
    compareAudio zeroBuffer zeroBuffer = 50 ∧ rawScore zeroBuffer zeroBuffer < 0.71 := by
  have hmin : minLength zeroBuffer zeroBuffer = 2049 := rfl
  have hcd : comparisonData zeroBuffer = zeroData := rfl
  have hz : ∀ i, i < 2048 → normalize (comparisonData zeroBuffer) 2049 i = 0 := by
    rw [hcd, normalize_zeroData]
    intro i _
    rfl
  have hfeat : extractMFCCFeatures
      (normalize (comparisonData zeroBuffer) (minLength zeroBuffer zeroBuffer))
      (minLength zeroBuffer zeroBuffer) zeroBuffer.sampleRate =
      [List.replicate 13 (Real.log 1e-10)] := by
    rw [hmin]
    exact extractMFCCFeatures_headzero _ _ hz
  have hmfcc := mfccSimilarityTerm_degenerate zeroBuffer zeroBuffer hfeat hfeat
  have hpitch := pitchMatchTerm_headzero zeroBuffer zeroBuffer hmin hz hz
  have henv := envelopeMatchTerm_headzero zeroBuffer zeroBuffer hmin hz hz
  have hsp := spectralMatchTerm_headzero zeroBuffer zeroBuffer hmin hz hz
  have hen : energyMatchTerm zeroBuffer zeroBuffer = 0 := by
    unfold energyMatchTerm
    rw [hmin, hcd, rmsEnergy_zeroData]
    norm_num
  have hdur : durationMatchTerm zeroBuffer zeroBuffer = 1 :=
    durationMatchTerm_eq_one _ _ rfl
  set t := mfccSimilarityTerm zeroBuffer zeroBuffer with hts
  have ht1 : 1 - 1e-14 ≤ t := hmfcc.1
  have ht2 : t < 1 := hmfcc.2
  have hraw : rawScore zeroBuffer zeroBuffer = t * 0.35 + 0.35 := by
    unfold rawScore
    rw [← hts, hpitch, henv, hsp, hen, hdur]
    ring
  constructor
  · unfold compareAudio curveAdjust
    rw [hraw, if_neg (by linarith), if_pos (by linarith)]
    rw [min_eq_right (by linarith), max_eq_right (by linarith)]
    unfold jsRound
    rw [Int.floor_eq_iff]
    constructor
    · push_cast
      linarith
    · push_cast
      linarith
  · rw [hraw]
    linarith

/-- C5 fails as stated: all-zero candidate against a reference with
nonzero energy gives energy match 0, but the reported score is 50, not
below 20. -/
theorem C5_counterexample :
    energyMatchTerm (tailSpikeBuffer 1) zeroBuffer = 0 ∧
    (∑ i ∈ range (tailSpikeBuffer 1).length,
      comparisonData (tailSpikeBuffer 1) i * comparisonData (tailSpikeBuffer 1) i) ≠ 0 ∧
    compareAudio (tailSpikeBuffer 1) zeroBuffer = 50 := by
  have hmin : minLength (tailSpikeBuffer 1) zeroBuffer = 2049 := rfl
  have hcd1 : comparisonData (tailSpikeBuffer 1) = tailSpikeData 1 := rfl
  have hcd2 : comparisonData zeroBuffer = zeroData := rfl
  have hz1 : ∀ i, i < 2048 → normalize (comparisonData (tailSpikeBuffer 1)) 2049 i = 0 := by
    rw [hcd1]
    exact tailSpike_normalized_headzero 1
  have hz2 : ∀ i, i < 2048 → normalize (comparisonData zeroBuffer) 2049 i = 0 := by
    rw [hcd2, normalize_zeroData]
    intro i _
    rfl
  have hen : energyMatchTerm (tailSpikeBuffer 1) zeroBuffer = 0 := by
    unfold energyMatchTerm
    rw [hmin, hcd1, hcd2, rmsEnergy_tailSpike 1, rmsEnergy_zeroData]
    rw [min_eq_right (Real.sqrt_nonneg _)]
    rw [zero_div]
  have hrefE : (∑ i ∈ range (tailSpikeBuffer 1).length,
      comparisonData (tailSpikeBuffer 1) i * comparisonData (tailSpikeBuffer 1) i) ≠ 0 := by
    rw [hcd1, show (tailSpikeBuffer 1).length = 2049 from rfl]
    rw [sum_range_one_support 2049 2048 _ (by norm_num)
      (fun i _ hne => by unfold tailSpikeData; rw [if_neg hne]; ring)]
    unfold tailSpikeData
    rw [if_pos rfl]
    norm_num
  have hfeat1 : extractMFCCFeatures
      (normalize (comparisonData (tailSpikeBuffer 1)) (minLength (tailSpikeBuffer 1) zeroBuffer))
      (minLength (tailSpikeBuffer 1) zeroBuffer) (tailSpikeBuffer 1).sampleRate =
      [List.replicate 13 (Real.log 1e-10)] := by
    rw [hmin]
    exact extractMFCCFeatures_headzero _ _ hz1
  have hfeat2 : extractMFCCFeatures
      (normalize (comparisonData zeroBuffer) (minLength (tailSpikeBuffer 1) zeroBuffer))
      (minLength (tailSpikeBuffer 1) zeroBuffer) (tailSpikeBuffer 1).sampleRate =
      [List.replicate 13 (Real.log 1e-10)] := by
    rw [hmin]
    exact extractMFCCFeatures_headzero _ _ hz2
  have hmfcc := mfccSimilarityTerm_degenerate (tailSpikeBuffer 1) zeroBuffer hfeat1 hfeat2
  have hpitch := pitchMatchTerm_headzero (tailSpikeBuffer 1) zeroBuffer hmin hz1 hz2
  have henv := envelopeMatchTerm_headzero (tailSpikeBuffer 1) zeroBuffer hmin hz1 hz2
  have hsp := spectralMatchTerm_headzero (tailSpikeBuffer 1) zeroBuffer hmin hz1 hz2
  have hdur : durationMatchTerm (tailSpikeBuffer 1) zeroBuffer = 1 :=
    durationMatchTerm_eq_one _ _ rfl
  set t := mfccSimilarityTerm (tailSpikeBuffer 1) zeroBuffer with hts
  have ht1 : 1 - 1e-14 ≤ t := hmfcc.1
  have ht2 : t < 1 := hmfcc.2
  have hraw : rawScore (tailSpikeBuffer 1) zeroBuffer = t * 0.35 + 0.35 := by
    unfold rawScore
    rw [← hts, hpitch, henv, hsp, hen, hdur]
    ring
  refine ⟨hen, hrefE, ?_⟩
  unfold compareAudio curveAdjust
  rw [hraw, if_neg (by linarith), if_pos (by linarith)]
  rw [min_eq_right (by linarith), max_eq_right (by linarith)]
  unfold jsRound
  rw [Int.floor_eq_iff]
  constructor
  · push_cast
    linarith
  · push_cast
    linarith

/-- `getD` of an all-zero list is zero. -/
theorem list_getD_zero (l : List ℝ) (h : ∀ x ∈ l, x = 0) (n : ℕ) : l.getD n 0 = 0 := by
  rcases Nat.lt_or_ge n l.length with hlt | hge
  · rw [List.getD_eq_getElem?_getD, List.getElem?_eq_getElem hlt]
    exact h _ (List.getElem_mem hlt)
  · rw [List.getD_eq_getElem?_getD, List.getElem?_eq_none hge]
    rfl

/-- Pitch contour of an all-zero waveform: every entry is unvoiced. -/
theorem extractPitchContour_all_zero (d : ℕ → ℝ) (len sampleRate : ℕ) (hd : ∀ i, d i = 0) :
    ∀ x ∈ extractPitchContour d len sampleRate, x = 0 := by
  intro x hx
  rcases List.mem_map.mp hx with ⟨pos, _, rfl⟩
  exact pitchAt_zero d sampleRate pos fun i _ => hd _

/-- RMS curve of an all-zero waveform: every window is zero. -/
theorem calculateRMSEnergyCurve_all_zero (d : ℕ → ℝ) (len : ℕ) (hd : ∀ i, d i = 0) :
    ∀ x ∈ calculateRMSEnergyCurve d len, x = 0 := by
  intro x hx
  rcases List.mem_map.mp hx with ⟨pos, _, rfl⟩
  exact rmsWindow_zero d pos fun i _ => hd _

/-- The variance local of an all-zero-entry list vanishes. -/
theorem corrVariance_all_zero (arr : List ℝ) (h : ∀ x ∈ arr, x = 0) (n : ℕ) :
    corrVariance arr n = 0 := by
  unfold corrVariance
  rw [Finset.sum_eq_zero fun i _ => by rw [list_getD_zero arr h i]; ring,
    Finset.sum_eq_zero fun i _ => list_getD_zero arr h i]
  norm_num

/-- The correlation is taken as 0 as soon as the second variance local is 0. -/
theorem calculateCorrelation_var2_zero (a1 a2 : List ℝ)
    (hv : corrVariance a2 (min a1.length a2.length) = 0) :
    calculateCorrelation a1 a2 = 0 := by
  unfold calculateCorrelation
  split_ifs with h0 hd
  · rfl
  · rfl
  · exfalso
    apply hd
    rw [hv]
    simp

/-- A pitch pair against an unvoiced candidate contributes equal difference
and count. -/
theorem pitchPair_zero_right (p1 : ℝ) : (pitchPair p1 0).1 = ((pitchPair p1 0).2 : ℕ) := by
  unfold pitchPair
  split_ifs with h1 h2
  · norm_num
  · norm_num
  · exact absurd (Or.inr rfl) h2

/-- The pitch match against an all-zero candidate contour is at most 1/2. -/
theorem calculatePitchContourMatch_zero_right (c1 c2 : List ℝ) (h2 : ∀ x ∈ c2, x = 0) :
    calculatePitchContourMatch c1 c2 ≤ 1 / 2 := by
  unfold calculatePitchContourMatch
  split_ifs with ha hb
  · norm_num
  · norm_num
  · set m := min c1.length c2.length with hm
    have hT : (∑ i ∈ range m,
        (pitchPair (c1.getD (i * c1.length / m) 0) (c2.getD (i * c2.length / m) 0)).1) =
        ((∑ i ∈ range m,
          (pitchPair (c1.getD (i * c1.length / m) 0) (c2.getD (i * c2.length / m) 0)).2 : ℕ) : ℝ) := by
      push_cast
      refine Finset.sum_congr rfl fun i _ => ?_
      rw [list_getD_zero c2 h2]
      rw [show ((pitchPair (c1.getD (i * c1.length / m) 0) 0).2 : ℝ) =
        (((pitchPair (c1.getD (i * c1.length / m) 0) 0).2 : ℕ) : ℝ) by norm_num]
      exact_mod_cast pitchPair_zero_right (c1.getD (i * c1.length / m) 0)
    rw [hT, div_self (by exact_mod_cast hb)]
    norm_num

/-- C5 (amended): an all-zero candidate yields energy match exactly 0, and
the reported score is at most 50 (it can reach 50, so it need not fall
below 20). -/
theorem C5_zero_candidate (b1 b2 : AudioBuffer)
    (hl1 : 0 < b1.length) (hs1 : 0 < b1.sampleRate)
    (hl2 : 0 < b2.length) (hs2 : 0 < b2.sampleRate)
    (hcand : ∀ i, b2.data 0 i = 0)
    (href : ∃ i, i < b1.length ∧ b1.data 0 i ≠ 0) :
    energyMatchTerm b1 b2 = 0 ∧ compareAudio b1 b2 ≤ 50 := by
  have hnd : ∀ i, normalize (comparisonData b2) (minLength b1 b2) i = 0 := by
    intro i
    unfold normalize comparisonData
    rw [hcand i]
    split_ifs <;> rfl
  have hen : energyMatchTerm b1 b2 = 0 := by
    unfold energyMatchTerm
    have hr2 : rmsEnergy (normalize (comparisonData b2) (minLength b1 b2)) (minLength b1 b2) = 0 := by
      unfold rmsEnergy
      rw [Finset.sum_eq_zero fun i _ => by rw [hnd i]; ring]
      simp
    rw [hr2, min_eq_right (show (0 : ℝ) ≤
      rmsEnergy (normalize (comparisonData b1) (minLength b1 b2)) (minLength b1 b2)
      from Real.sqrt_nonneg _), zero_div]
  refine ⟨hen, ?_⟩
  have hmfcc := (mfccSimilarityTerm_bounds b1 b2).2
  have hpitch : pitchMatchTerm b1 b2 ≤ 1 / 2 := by
    unfold pitchMatchTerm
    exact calculatePitchContourMatch_zero_right _ _
      (extractPitchContour_all_zero _ _ _ hnd)
  have henv : envelopeMatchTerm b1 b2 = 1 / 2 := by
    unfold envelopeMatchTerm envCurveOf
    rw [calculateCorrelation_var2_zero _ _
      (corrVariance_all_zero _ (calculateRMSEnergyCurve_all_zero _ _ hnd) _)]
    norm_num
  have hsp := (spectralMatchTerm_bounds b1 b2).2
  have hdur := (durationMatchTerm_bounds b1 b2 hl1 hs1 hl2 hs2).2
  have hraw : rawScore b1 b2 < 0.7 := by
    unfold rawScore
    rw [hen, henv]
    nlinarith
  have hadj : curveAdjust (rawScore b1 b2) < 50 := by
    unfold curveAdjust
    split_ifs with h1 h2
    · linarith
    · linarith
    · push_neg at h2
      linarith
  have hclamp : max 0 (min 100 (curveAdjust (rawScore b1 b2))) < 50 := by
    rw [max_lt_iff]
    exact ⟨by norm_num, lt_of_le_of_lt (min_le_right _ _) hadj⟩
  unfold compareAudio jsRound
  have hfl : ⌊max 0 (min 100 (curveAdjust (rawScore b1 b2))) + 1 / 2⌋ < 51 :=
    Int.floor_lt.mpr (by push_cast; linarith)
  omega

/-- The spectral term of a buffer against itself is 1. -/
theorem spectralMatchTerm_self (b : AudioBuffer) : spectralMatchTerm b b = 1 := by
  unfold spectralMatchTerm
  rw [sub_self, abs_zero, zero_div, min_eq_right (by norm_num : (0 : ℝ) ≤ 1), sub_zero]

/-- Correlation of a list with itself is 1 when its variance is positive. -/
theorem calculateCorrelation_self (arr : List ℝ) (hv : 0 < corrVariance arr arr.length) :
    calculateCorrelation arr arr = 1 := by
  unfold calculateCorrelation
  split_ifs with h0 hd
  · exfalso
    rw [min_self] at h0
    rw [h0] at hv
    simp [corrVariance] at hv
  · exfalso
    rw [min_self, Real.sqrt_mul_self hv.le] at hd
    exact hv.ne' hd
  · rw [min_self, Real.sqrt_mul_self hv.le,
      show corrCross arr arr arr.length = corrVariance arr arr.length from rfl]
    exact div_self hv.ne'

/-- A pitch pair of two equal values contributes no difference. -/
theorem pitchPair_self (p : ℝ) : (pitchPair p p).1 = 0 := by
  unfold pitchPair
  split_ifs with h1 h2
  · rfl
  · exfalso
    rcases h2 with h | h <;> exact h1 ⟨h, h⟩
  · dsimp only
    rw [sub_self, abs_zero, zero_div, min_eq_right (by norm_num : (0 : ℝ) ≤ 1)]

/-- A pitch pair of two equal nonzero values is counted. -/
theorem pitchPair_self_snd (p : ℝ) (hp : p ≠ 0) : (pitchPair p p).2 = 1 := by
  unfold pitchPair
  rw [if_neg (fun h => hp h.1), if_neg (fun h => hp (h.elim id id))]

/-- The pitch match of a contour against itself is 1 once a voiced frame
exists. -/
theorem calculatePitchContourMatch_self (c : List ℝ) (hv : ∃ x ∈ c, x ≠ 0) :
    calculatePitchContourMatch c c = 1 := by
  obtain ⟨x, hxmem, hxne⟩ := hv
  obtain ⟨j, hj, hxj⟩ := List.getElem_of_mem hxmem
  have hlen : c.length ≠ 0 := by
    intro h
    rw [List.length_eq_zero] at h
    subst h
    exact absurd hxmem (List.not_mem_nil x)
  unfold calculatePitchContourMatch
  rw [min_self]
  rw [if_neg (fun h => hlen (h.elim id id))]
  have hidx : ∀ i : ℕ, i * c.length / c.length = i := fun i => by
    rw [Nat.mul_div_assoc i (dvd_refl c.length), Nat.div_self (Nat.pos_of_ne_zero hlen),
      Nat.mul_one]
  have e1 : (∑ i ∈ range c.length,
      (pitchPair (c.getD (i * c.length / c.length) 0) (c.getD (i * c.length / c.length) 0)).1) =
      ∑ i ∈ range c.length, (pitchPair (c.getD i 0) (c.getD i 0)).1 :=
    Finset.sum_congr rfl fun i _ => by rw [hidx i]
  have e2 : (∑ i ∈ range c.length,
      (pitchPair (c.getD (i * c.length / c.length) 0) (c.getD (i * c.length / c.length) 0)).2) =
      ∑ i ∈ range c.length, (pitchPair (c.getD i 0) (c.getD i 0)).2 :=
    Finset.sum_congr rfl fun i _ => by rw [hidx i]
  rw [e1, e2]
  have hgj : c.getD j 0 = x := by
    rw [List.getD_eq_getElem?_getD, List.getElem?_eq_getElem hj]
    exact hxj
  have hppos : (∑ i ∈ range c.length, (pitchPair (c.getD i 0) (c.getD i 0)).2) ≠ 0 := by
    have h1le : 1 ≤ ∑ i ∈ range c.length, (pitchPair (c.getD i 0) (c.getD i 0)).2 := by
      calc 1 = (pitchPair (c.getD j 0) (c.getD j 0)).2 := by
            rw [pitchPair_self_snd (c.getD j 0) (by rw [hgj]; exact hxne)]
      _ ≤ ∑ i ∈ range c.length, (pitchPair (c.getD i 0) (c.getD i 0)).2 :=
            Finset.single_le_sum
              (fun (i : ℕ) (_ : i ∈ range c.length) =>
                Nat.zero_le ((pitchPair (c.getD i 0) (c.getD i 0)).2))
              (Finset.mem_range.mpr hj)
    omega
  rw [if_neg hppos, Finset.sum_eq_zero fun i _ => pitchPair_self (c.getD i 0), zero_div, sub_zero]

/-- The MFCC similarity of a feature list against itself is at least
`100/101` when every frame's squared norm is at least `1e-8`. -/
theorem calculateMFCCSimilarity_self_ge (F : List (List ℝ)) (hne : F.length ≠ 0)
    (hfeat : ∀ v ∈ F, 1e-8 ≤ vecSumSq v) :
    100 / 101 ≤ calculateMFCCSimilarity F F := by
  unfold calculateMFCCSimilarity
  rw [min_self]
  rw [if_neg (fun h => hne (h.elim id id))]
  have hidx : ∀ i : ℕ, i * F.length / F.length = i := fun i => by
    rw [Nat.mul_div_assoc i (dvd_refl F.length), Nat.div_self (Nat.pos_of_ne_zero hne),
      Nat.mul_one]
  have hL : (0 : ℝ) < ((F.length : ℕ) : ℝ) := by
    exact_mod_cast Nat.pos_of_ne_zero hne
  rw [le_div_iff₀ hL]
  have hterm : ∀ i ∈ range F.length, (100 : ℝ) / 101 ≤
      cosineSim (F.getD (i * F.length / F.length) []) (F.getD (i * F.length / F.length) []) := by
    intro i hi
    rw [hidx i, cosineSim_self]
    have hS := hfeat _ (list_getD_mem F [] i (Finset.mem_range.mp hi))
    have hden : (0 : ℝ) < vecSumSq (F.getD i []) + 1e-10 := by linarith
    rw [le_div_iff₀ hden]
    nlinarith
  calc (100 : ℝ) / 101 * ((F.length : ℕ) : ℝ) = ∑ _i ∈ range F.length, (100 : ℝ) / 101 := by
        rw [Finset.sum_const, Finset.card_range, nsmul_eq_mul]
        ring
  _ ≤ ∑ i ∈ range F.length,
        cosineSim (F.getD (i * F.length / F.length) []) (F.getD (i * F.length / F.length) []) :=
      Finset.sum_le_sum hterm

/-- C3 (amended): for bit-identical buffers whose comparison is
non-degenerate - full-signal RMS at least 0.001, at least one voiced pitch
frame, positive envelope variance, and every timbre frame with squared
log-energy norm at least 1e-8 - the raw score is at least 0.997 and the
reported score is exactly 100. -/
theorem C3_identical_nondegenerate (b : AudioBuffer)
    (hvoiced : ∃ x ∈ extractPitchContour (normalize (comparisonData b) (minLength b b))
      (minLength b b) b.sampleRate, x ≠ 0)
    (hrms : 0.001 ≤ rmsEnergy (normalize (comparisonData b) (minLength b b)) (minLength b b))
    (hvar : 0 < corrVariance (envCurveOf b (minLength b b)) (envCurveOf b (minLength b b)).length)
    (hfeat : ∀ v ∈ extractMFCCFeatures (normalize (comparisonData b) (minLength b b))
      (minLength b b) b.sampleRate, 1e-8 ≤ vecSumSq v) :
    0.997 ≤ rawScore b b ∧ compareAudio b b = 100 := by
  have hpitch : pitchMatchTerm b b = 1 := calculatePitchContourMatch_self _ hvoiced
  have henv : envelopeMatchTerm b b = 1 := by
    unfold envelopeMatchTerm
    rw [calculateCorrelation_self _ hvar]
    norm_num
  have hsp := spectralMatchTerm_self b
  have hen : energyMatchTerm b b = 1 := by
    unfold energyMatchTerm
    rw [min_self, max_eq_left hrms, max_self]
    exact div_self (lt_of_lt_of_le (by norm_num) hrms).ne'
  have hdur : durationMatchTerm b b = 1 := durationMatchTerm_eq_one b b rfl
  have hFne : (extractMFCCFeatures (normalize (comparisonData b) (minLength b b))
      (minLength b b) b.sampleRate).length ≠ 0 := by
    obtain ⟨x, hx, _⟩ := hvoiced
    intro hF
    unfold extractMFCCFeatures at hF
    unfold extractPitchContour at hx
    rw [List.length_map, List.length_eq_zero] at hF
    rw [hF] at hx
    exact absurd hx (List.not_mem_nil x)
  have hmfcc1 := calculateMFCCSimilarity_self_ge _ hFne hfeat
  have hmfcc2 := (calculateMFCCSimilarity_bounds
    (extractMFCCFeatures (normalize (comparisonData b) (minLength b b)) (minLength b b) b.sampleRate)
    (extractMFCCFeatures (normalize (comparisonData b) (minLength b b)) (minLength b b) b.sampleRate)).2
  set s := calculateMFCCSimilarity
    (extractMFCCFeatures (normalize (comparisonData b) (minLength b b)) (minLength b b) b.sampleRate)
    (extractMFCCFeatures (normalize (comparisonData b) (minLength b b)) (minLength b b) b.sampleRate)
    with hsd
  have hraw : rawScore b b = (s + 1) / 2 * 0.35 + 0.65 := by
    unfold rawScore mfccSimilarityTerm
    rw [← hsd, hpitch, henv, hsp, hen, hdur]
    ring
  refine ⟨by rw [hraw]; linarith, ?_⟩
  unfold compareAudio curveAdjust
  rw [hraw, if_pos (by linarith)]
  have h1 : (99.7 : ℝ) ≤ min 100 (50 + ((s + 1) / 2 * 0.35 + 0.65 - 0.7) * 166.67) :=
    le_min (by norm_num) (by linarith)
  have h2 : min 100 (50 + ((s + 1) / 2 * 0.35 + 0.65 - 0.7) * 166.67) ≤ 100 :=
    min_le_left _ _
  rw [max_eq_right (le_trans (by norm_num : (0 : ℝ) ≤ 99.7) h1)]
  unfold jsRound
  rw [Int.floor_eq_iff]
  constructor
  · push_cast
    linarith
  · push_cast
    linarith

/-- The double-spike waveform vanishes away from samples 0 and 96. -/
theorem doubleSpikeData_eq_zero (i : ℕ) (h0 : i ≠ 0) (h96 : i ≠ 96) :
    doubleSpikeData i = 0 := by
  unfold doubleSpikeData
  rw [if_neg h0, if_neg h96]

/-- Autocorrelation of the double-spike frame at lag 96: exactly 1. -/
theorem pitchCorr_voiced_96 : pitchCorr doubleSpikeData 0 96 = 1 := by
  unfold pitchCorr
  simp only [Nat.zero_add]
  rw [sum_range_two_support (2048 - 96) 0 96 _ (by norm_num) (by norm_num) (by norm_num)
    (fun i _ hi0 hi96 => by rw [doubleSpikeData_eq_zero i hi0 hi96, zero_mul])]
  norm_num [doubleSpikeData]

/-- Autocorrelation of the double-spike frame at the remaining lags: 0. -/
theorem pitchCorr_voiced_rest (lag : ℕ) (h1 : 97 ≤ lag) (h2 : lag ≤ 599) :
    pitchCorr doubleSpikeData 0 lag = 0 := by
  unfold pitchCorr
  simp only [Nat.zero_add]
  rw [sum_range_two_support (2048 - lag) 0 96 _ (by omega) (by omega) (by norm_num)
    (fun i _ hi0 hi96 => by rw [doubleSpikeData_eq_zero i hi0 hi96, zero_mul])]
  rw [doubleSpikeData_eq_zero (0 + lag) (by omega) (by omega),
    doubleSpikeData_eq_zero (96 + lag) (by omega) (by omega)]
  norm_num

/-- The lag list at 48 kHz: lags 96 to 599. -/
theorem pitchLagList_48000 : pitchLagList 48000 = List.range' 96 504 := by
  unfold pitchLagList
  norm_num

/-- The double-spike frame at position 0 is voiced with pitch 500 Hz. -/
theorem pitchAt_voiced : pitchAt doubleSpikeData 48000 0 = 500 := by
  unfold pitchAt
  rw [pitchLagList_48000, show (504 : ℕ) = 503 + 1 from rfl, List.range'_succ]
  rw [foldl_bestLagStep_head doubleSpikeData 0 96 (List.range' 97 503) (fun lag hl => by
    have hmem := List.mem_range'_1.mp hl
    rw [pitchCorr_voiced_96, pitchCorr_voiced_rest lag (by omega) (by omega)]
    norm_num)]
  rw [pitchCorr_voiced_96]
  dsimp only
  rw [if_pos (by norm_num : (0.3 : ℝ) < 1), if_pos (by norm_num : 0 < 96)]
  norm_num

/-- The pitch contour of the 3073-sample double-spike buffer. -/
theorem contour_voiced : extractPitchContour doubleSpikeData 3073 48000 = [500, 0, 0] := by
  unfold extractPitchContour
  rw [framePositions_3073_512]
  simp only [List.map_cons, List.map_nil]
  rw [pitchAt_voiced,
    pitchAt_zero doubleSpikeData 48000 512 (fun i _ =>
      doubleSpikeData_eq_zero (512 + i) (by omega) (by omega)),
    pitchAt_zero doubleSpikeData 48000 1024 (fun i _ =>
      doubleSpikeData_eq_zero (1024 + i) (by omega) (by omega))]

/-- First envelope window of the double-spike buffer: RMS `1/32`. -/
theorem rmsWindow_voiced_0 : rmsWindow doubleSpikeData 0 = 1 / 32 := by
  unfold rmsWindow
  simp only [Nat.zero_add]
  rw [sum_range_two_support 2048 0 96 _ (by norm_num) (by norm_num) (by norm_num)
    (fun i _ hi0 hi96 => by rw [doubleSpikeData_eq_zero i hi0 hi96, zero_mul])]
  rw [show doubleSpikeData 0 * doubleSpikeData 0 + doubleSpikeData 96 * doubleSpikeData 96 =
    2 by norm_num [doubleSpikeData]]
  rw [show (2 : ℝ) / 2048 = (1 / 32) ^ 2 by norm_num]
  exact Real.sqrt_sq (by norm_num)

/-- The envelope of the double-spike buffer: `[1/32, 0]`. -/
theorem envCurve_voiced : envCurveOf voicedBuffer 3073 = [1 / 32, 0] := by
  unfold envCurveOf
  rw [show comparisonData voicedBuffer = doubleSpikeData from rfl, normalize_doubleSpike]
  unfold calculateRMSEnergyCurve
  rw [framePositions_3073_1024]
  simp only [List.map_cons, List.map_nil]
  rw [rmsWindow_voiced_0,
    rmsWindow_zero doubleSpikeData 1024 (fun i _ =>
      doubleSpikeData_eq_zero (1024 + i) (by omega) (by omega))]

/-- The envelope variance of the double-spike buffer is positive. -/
theorem corrVariance_voiced : corrVariance [(1 / 32 : ℝ), 0] 2 = 1 / 2048 := by
  unfold corrVariance
  rw [Finset.sum_range_succ, Finset.sum_range_one, Finset.sum_range_succ, Finset.sum_range_one]
  norm_num

/-- `getD` through a map over `List.range`. -/
theorem getD_map_range (f : ℕ → ℝ) (n j : ℕ) (hj : j < n) :
    ((List.range n).map f).getD j 0 = f j := by
  rw [List.getD_eq_getElem?_getD, List.getElem?_eq_getElem (by simpa using hj)]
  simp

/-- The zeroth mel edge is 0. -/
theorem melBand_zero_eq (sampleRate : ℕ) : melBand sampleRate 0 = 0 := by
  unfold melBand
  norm_num

/-- Bin 0 (frequency 0) falls into band 0, not band 1. -/
theorem firstMatch_freq0 : firstMatchingBand 48000 (binFreq 48000 0) = some 0 := by
  rw [show binFreq 48000 0 = 0 by unfold binFreq; norm_num]
  unfold firstMatchingBand
  have hp : (fun b => decide (melBand 48000 b ≤ (0 : ℝ) ∧ (0 : ℝ) < melBand 48000 (b + 1))) 0
      = true := by
    simp only [decide_eq_true_eq]
    refine ⟨?_, ?_⟩
    · rw [melBand_zero_eq]
    · have := melBand_lt_melBand 48000 (by norm_num) (show 0 < 0 + 1 by norm_num)
      rwa [melBand_zero_eq] at this
  rw [List.range_succ_eq_map]
  exact List.find?_cons_of_pos _ hp

/-- The second mel edge at 48 kHz is at most 2250 Hz. -/
theorem melBand_2_le : melBand 48000 2 ≤ 2250 := by
  unfold melBand
  have h1 : (1 : ℝ) + ((48000 : ℕ) : ℝ) / 2 / 700 = 247 / 7 := by norm_num
  rw [h1]
  have hexp : (((2 : ℕ) : ℝ) / 13) * 2595 * Real.logb 10 (247 / 7) / 2595 =
      Real.logb 10 (247 / 7) * (2 / 13) := by
    push_cast
    ring
  rw [hexp]
  have hbase : (10 : ℝ) ^ (Real.logb 10 (247 / 7) * (2 / 13)) =
      ((247 / 7 : ℝ)) ^ ((2 : ℝ) / 13) := by
    rw [Real.rpow_mul (by norm_num : (0 : ℝ) ≤ 10),
      Real.rpow_logb (by norm_num : (0 : ℝ) < 10) (by norm_num : (10 : ℝ) ≠ 1)
        (by norm_num : (0 : ℝ) < 247 / 7)]
  rw [hbase]
  have hpow : ((247 / 7 : ℝ) ^ ((2 : ℝ) / 13)) ^ (13 : ℕ) = (247 / 7 : ℝ) ^ (2 : ℕ) := by
    rw [← Real.rpow_natCast ((247 / 7 : ℝ) ^ ((2 : ℝ) / 13)) 13,
      ← Real.rpow_mul (by norm_num : (0 : ℝ) ≤ 247 / 7)]
    rw [show ((2 : ℝ) / 13) * ((13 : ℕ) : ℝ) = ((2 : ℕ) : ℝ) by push_cast; ring]
    rw [Real.rpow_natCast]
  have hle : (247 / 7 : ℝ) ^ ((2 : ℝ) / 13) ≤ 59 / 14 := by
    have hnn : (0 : ℝ) ≤ (247 / 7 : ℝ) ^ ((2 : ℝ) / 13) :=
      Real.rpow_nonneg (by norm_num) _
    by_contra hcon
    push_neg at hcon
    have h13 : ((59 / 14 : ℝ)) ^ (13 : ℕ) < ((247 / 7 : ℝ) ^ ((2 : ℝ) / 13)) ^ (13 : ℕ) := by
      apply pow_lt_pow_left hcon (by norm_num)
      norm_num
    rw [hpow] at h13
    norm_num at h13
  linarith

/-- Bin 96 (frequency 2250) does not fall into band 1. -/
theorem firstMatch_2250_ne : firstMatchingBand 48000 (binFreq 48000 96) ≠ some 1 := by
  intro h
  have hp := List.find?_some h
  simp only [decide_eq_true_eq] at hp
  have h2250 : binFreq 48000 96 = 2250 := by
    unfold binFreq
    norm_num
  rw [h2250] at hp
  exact absurd hp.2 (not_lt.mpr melBand_2_le)

/-- Band 1 of the double-spike frame accumulates no energy. -/
theorem bandE1_voiced : bandEnergy doubleSpikeData 48000 0 1 = 0 := by
  unfold bandEnergy
  simp only [Nat.zero_add]
  refine Finset.sum_eq_zero fun i _ => ?_
  by_cases h0 : i = 0
  · subst h0
    rw [if_neg (fun h => by rw [firstMatch_freq0] at h; simp at h)]
  · by_cases h96 : i = 96
    · subst h96
      rw [if_neg firstMatch_2250_ne]
    · rw [doubleSpikeData_eq_zero i h0 h96]
      simp

/-- Every timbre frame of the double-spike buffer has squared norm at
least `1e-8`. -/
theorem hfeat_voiced :
    ∀ v ∈ extractMFCCFeatures doubleSpikeData 3073 48000, 1e-8 ≤ vecSumSq v := by
  have hL := log_epsilon_sq_ge
  intro v hv
  unfold extractMFCCFeatures at hv
  rw [framePositions_3073_512] at hv
  simp only [List.map_cons, List.map_nil, List.mem_cons, List.not_mem_nil, or_false] at hv
  rcases hv with hv | hv | hv
  · subst hv
    have hlen : (mfccFrame doubleSpikeData 48000 0).length = 13 := by simp [mfccFrame]
    have hget : (mfccFrame doubleSpikeData 48000 0).getD 1 0 = Real.log 1e-10 := by
      unfold mfccFrame
      rw [getD_map_range _ 13 1 (by norm_num), bandE1_voiced]
      norm_num
    have hsum : (mfccFrame doubleSpikeData 48000 0).getD 1 0 *
        (mfccFrame doubleSpikeData 48000 0).getD 1 0 ≤ vecSumSq (mfccFrame doubleSpikeData 48000 0) := by
      unfold vecSumSq
      rw [hlen]
      exact Finset.single_le_sum
        (fun (j : ℕ) (_ : j ∈ range 13) =>
          mul_self_nonneg ((mfccFrame doubleSpikeData 48000 0).getD j 0))
        (Finset.mem_range.mpr (by norm_num : (1 : ℕ) < 13))
    rw [hget] at hsum
    linarith
  · subst hv
    rw [mfccFrame_zero doubleSpikeData 48000 512 (fun i _ =>
      doubleSpikeData_eq_zero (512 + i) (by omega) (by omega)), vecSumSq_replicate]
    push_cast
    nlinarith
  · subst hv
    rw [mfccFrame_zero doubleSpikeData 48000 1024 (fun i _ =>
      doubleSpikeData_eq_zero (1024 + i) (by omega) (by omega)), vecSumSq_replicate]
    push_cast
    nlinarith

/-- Witness for the amended C3: the concrete double-spike buffer satisfies
every non-degeneracy hypothesis and indeed scores 100 against itself. -/
theorem C3_identical_nondegenerate_witness :
    0.997 ≤ rawScore voicedBuffer voicedBuffer ∧ compareAudio voicedBuffer voicedBuffer = 100 := by
  have hmin : minLength voicedBuffer voicedBuffer = 3073 := rfl
  have hcd : comparisonData voicedBuffer = doubleSpikeData := rfl
  have hcontour : extractPitchContour
      (normalize (comparisonData voicedBuffer) (minLength voicedBuffer voicedBuffer))
      (minLength voicedBuffer voicedBuffer) voicedBuffer.sampleRate = [500, 0, 0] := by
    rw [hmin, hcd, normalize_doubleSpike]
    exact contour_voiced
  apply C3_identical_nondegenerate voicedBuffer
  · rw [hcontour]
    exact ⟨500, by norm_num, by norm_num⟩
  · rw [hmin, hcd, normalize_doubleSpike]
    unfold rmsEnergy
    rw [sum_range_two_support 3073 0 96 _ (by norm_num) (by norm_num) (by norm_num)
      (fun i _ hi0 hi96 => by rw [doubleSpikeData_eq_zero i hi0 hi96, zero_mul])]
    rw [show doubleSpikeData 0 * doubleSpikeData 0 + doubleSpikeData 96 * doubleSpikeData 96 =
      2 by norm_num [doubleSpikeData]]
    rw [show (0.001 : ℝ) = Real.sqrt 1e-6 by
      rw [show (1e-6 : ℝ) = 0.001 ^ 2 by norm_num, Real.sqrt_sq (by norm_num)]]
    apply Real.sqrt_le_sqrt
    norm_num
  · rw [hmin, envCurve_voiced]
    rw [show ([(1 / 32 : ℝ), 0]).length = 2 from rfl, corrVariance_voiced]
    norm_num
  · rw [hmin, hcd, normalize_doubleSpike]
    rw [show voicedBuffer.sampleRate = 48000 from rfl]
    exact hfeat_voiced

/-- Witness for the amended C5 at the concrete counterexample pair. -/
theorem C5_zero_candidate_witness :
    energyMatchTerm (tailSpikeBuffer 1) zeroBuffer = 0 ∧
      compareAudio (tailSpikeBuffer 1) zeroBuffer ≤ 50 :=
  C5_zero_candidate (tailSpikeBuffer 1) zeroBuffer
    (by norm_num [tailSpikeBuffer]) (by norm_num [tailSpikeBuffer])
    (by norm_num [zeroBuffer]) (by norm_num [zeroBuffer])
    (fun i => rfl)
    ⟨2048, by norm_num [tailSpikeBuffer], by
      show tailSpikeData 1 2048 ≠ 0
      unfold tailSpikeData
      norm_num⟩

end ReverseKaraoke
